import Mathlib

/-!
Verification of the B-Minor compiler backend (semantic analyzer `checker.py`,
LLVM-IR code generator `bminor2llvm.py`, and the drivers `bminor.py` /
`bminor2llvm.py`) against its natural-language specification.

The Python sources are shallowly embedded as executable Lean functions over a
single AST type `PNode` that mirrors `model.py`.  Recursive traversals take an
explicit fuel argument (structural recursion on the fuel) so that every
function is computable by the kernel; fuel exhaustion returns the state
unchanged and all theorems either hold for every fuel or use a fuel that is
ample for the concrete program at hand.

Notes on fidelity:
 * `symtab.py` and `typesys.py` are imported by `checker.py` but are not part
   of the source tree; `Symtab`, `typenames`, `check_binop` and
   `check_unaryop` below are modelled from the specification (sections 4.1
   and 4.2) and are marked as such.
 * Source line numbers (`lineno`) are carried by every Python AST node but
   feed only the display of diagnostics; the embedding drops them and
   identifies a diagnostic with its message text.
 * Python's `hash()` for strings is process-randomised; the string-pool key
   of `_string_global` is modelled by a fixed deterministic stand-in
   (`pyStrHash`).  No claim depends on its value.
-/

/-! ## Decimal and hexadecimal numerals

Python's f-strings render the register / label counters in decimal
(`f"%t{self.tmp_counter}"`).  `decStr` is that decimal numeral, written with
an explicit fuel so it is structural (the fuel `n` is always sufficient for
the value `n`). -/

def decAux : Nat → Nat → List Char
  | 0, _ => []
  | fuel + 1, v => if v = 0 then [] else decAux fuel (v / 10) ++ [Nat.digitChar (v % 10)]

def decStr (n : Nat) : String :=
  if n = 0 then "0" else String.mk (decAux n n)

/-- Python `str(int(v))` for a (possibly negative) integer. -/
def intStr (i : Int) : String :=
  if i < 0 then "-" ++ decStr i.natAbs else decStr i.toNat

def hexAux : Nat → Nat → List Char
  | 0, _ => []
  | fuel + 1, v => if v = 0 then [] else hexAux fuel (v / 16) ++ [Nat.digitChar (v % 16)]

/-- Python `f"{n:x}"` (lowercase hexadecimal). -/
def hexStr (n : Nat) : String :=
  if n = 0 then "0" else String.mk (hexAux n n)

/-- Numeric value read back from a list of decimal digit characters. -/
def decVal (ds : List Char) : Nat :=
  ds.foldl (fun a c => a * 10 + (c.toNat - 48)) 0

/-! ## AST (`model.py`)

One inductive type mirrors the dynamically-typed node classes of `model.py`:
statements, expressions, types and parameters are all `PNode`s, and dispatch
(`multimethod` in Python) becomes a `match` on the constructor.  `lineno`
fields are dropped (they only decorate diagnostics).  A `Float` literal
carries the string Python's `f"{float(v)}"` would print; a statement position
holding an expression (e.g. `x = 1;`) is the expression node itself, exactly
as in the Python AST. -/

inductive PNode where
  | program (body : List PNode)
  | varDecl (name : String) (type : Option PNode) (init : Option PNode)
  | param (name : String) (type : Option PNode)
  | block (stmts : List PNode)
  | printStmt (args : List PNode)
  | returnStmt (expr : Option PNode)
  | ifStmt (cond : Option PNode) (thenS : Option PNode) (otherwise : Option PNode)
  | whileStmt (cond : Option PNode) (body : Option PNode)
  | doWhileStmt (body : Option PNode) (cond : Option PNode)
  | forStmt (finit : Option PNode) (cond : Option PNode) (step : Option PNode) (body : Option PNode)
  | ident (name : String)
  | binOper (oper : String) (left : PNode) (right : PNode)
  | unaryOper (oper : String) (expr : PNode)
  | postfixOper (oper : String) (expr : PNode)
  | preInc (expr : PNode)
  | preDec (expr : PNode)
  | intLit (value : Int)
  | floatLit (valueRepr : String)
  | boolLit (value : Bool)
  | charLit (value : Char)
  | strLit (value : String)
  | call (func : PNode) (args : List PNode)
  | arrayIndex (array : PNode) (index : PNode)
  | assign (target : PNode) (value : PNode)
  | simpleType (name : String)
  | arrayType (base : Option PNode) (size : Option PNode)
  | funcType (ret : Option PNode) (params : List PNode)
deriving Repr

/-- Python `f"{x}"` for an optional string (`None` prints as `"None"`). -/
def optPyStr : Option String → String
  | some s => s
  | none => "None"

/-! ## `typesys.py` (modelled) -/

/-- Modelled from the spec: `typesys.py` is imported by `checker.py` but is
absent from the source tree.  Section 3 of the spec lists the primitive type
names `integer | float | boolean | char | string | void`. -/
def typenames : List String := ["integer", "float", "boolean", "char", "string", "void"]

/-- Modelled from the spec: `typesys.py` is absent.  §4.2: "`check_binop(op, L,
R) -> T|none`: arithmetic ops require L==R==numeric primitive → same type;
comparisons require compatible operands → boolean; `&&`/`||` require boolean
operands → boolean." -/
def checkBinop (op : String) (l r : Option String) : Option String :=
  if op = "+" ∨ op = "-" ∨ op = "*" ∨ op = "/" ∨ op = "%" then
    match l, r with
    | some a, some b =>
        if a = b ∧ (a = "integer" ∨ a = "float") then some a else none
    | _, _ => none
  else if op = "==" ∨ op = "!=" ∨ op = "<" ∨ op = "<=" ∨ op = ">" ∨ op = ">=" then
    match l, r with
    | some a, some b => if a = b then some "boolean" else none
    | _, _ => none
  else if op = "&&" ∨ op = "||" then
    if l = some "boolean" ∧ r = some "boolean" then some "boolean" else none
  else none

/-- Modelled from the spec: `typesys.py` is absent.  §4.2: "`check_unaryop(op,
T) -> T|none`: `-` numeric→same; `!` boolean→boolean." -/
def checkUnaryop (op : String) (t : Option String) : Option String :=
  if op = "-" then
    match t with
    | some a => if a = "integer" ∨ a = "float" then some a else none
    | none => none
  else if op = "!" then
    if t = some "boolean" then some "boolean" else none
  else none

/-! ## Type helpers of `checker.py` -/

/-- Is the first list a prefix of the second?  (Plain list recursion so the
kernel can evaluate it; the core `String` functions are iterator-based and do
not reduce.) -/
def leadMatch : List Char → List Char → Bool
  | [], _ => true
  | _ :: _, [] => false
  | p :: ps, c :: cs => p == c && leadMatch ps cs

/-- Python `str.startswith(pre)`. -/
def pyStartsWith (s pre : String) : Bool := leadMatch pre.data s.data

/-- Python `str.strip()` (whitespace from both ends; the strings involved
only ever carry plain spaces). -/
def pyStrip (s : String) : String :=
  String.mk (((s.data.dropWhile (fun c => c = ' ')).reverse.dropWhile
    (fun c => c = ' ')).reverse)

def pySplitAux : List Char → List Char → List String
  | [], cur => if cur.isEmpty then [] else [String.mk cur.reverse]
  | c :: cs, cur =>
    if c = ' ' then
      if cur.isEmpty then pySplitAux cs []
      else String.mk cur.reverse :: pySplitAux cs []
    else pySplitAux cs (c :: cur)

/-- Python `str.split()` (split on whitespace runs, no empty pieces). -/
def pySplit (s : String) : List String := pySplitAux s.data []

/-- Python `sep.join(parts)`. -/
def joinSep (sep : String) : List String → String
  | [] => ""
  | [x] => x
  | x :: rest => x ++ sep ++ joinSep sep rest

/-- `checker.resolve_type`.  The fuel bounds the nesting depth of the type
and is always ample where this is used. -/
def resolveType : Nat → Option PNode → Option String
  | _, none => none
  | 0, some _ => none
  | fuel + 1, some t =>
    match t with
    | .simpleType name => some name
    | .arrayType base size =>
        let b := resolveType fuel base
        let sizeRepr : String :=
          match size with
          | some (.intLit v) => intStr v
          | some (.boolLit bv) => if bv then "True" else "False"
          | _ => ""
        some (pyStrip ("array[" ++ sizeRepr ++ "] " ++ optPyStr b))
    | .funcType ret params =>
        let r : String :=
          match ret with
          | none => "void"
          | some tr => optPyStr (resolveType fuel (some tr))
        let ps : List String := params.map (fun p =>
          match p with
          | .param _ pty => optPyStr (resolveType fuel pty)
          | _ => optPyStr none)
        some ("function " ++ r ++ "(" ++ joinSep ", " ps ++ ")")
    | _ => none

/-- `checker.is_type`. -/
def isType (fuel : Nat) (tname : Option String) (original : Option PNode) : Bool :=
  match tname with
  | none => false
  | some tn =>
    match original with
    | some (.arrayType base _) =>
        match resolveType fuel base with
        | some b => b ∈ typenames
        | none => false
    | _ => tn ∈ typenames

/-- `checker.array_base_from_name`. -/
def arrayBaseFromName (tname : Option String) : Option String :=
  match tname with
  | none => none
  | some tn =>
    if tn = "" then none
    else if pyStartsWith tn "array" then
      let parts := pySplit tn
      if parts.length ≥ 2 then parts.getLast? else none
    else none

/-- `checker.types_equal`. -/
def typesEqual (a b : String) : Bool := a = b

/-! ## Checker state (`errors.py` sink + `Check.run` instance fields) -/

/-- One `Symtab` (modelled from the spec, §4.1): an ordered name→declaration
table plus a weak parent reference.  Scopes are stored in an arena
(`CheckSt.frames`) and identified by their index, which plays the role of
Python's `id(env)`. -/
structure CheckFrame where
  parent : Option Nat
  table : List (String × PNode)
deriving Repr

/-- The mutable state of one `Check.run`: the `errors.py` sink (`msgs`,
`hadErrors`), the checker's stacks and flags, the `Symtab` arena and the
per-scope initialization maps (`_inits`, keyed by scope identity). -/
structure CheckSt where
  msgs : List String
  hadErrors : Bool
  funRetStack : List (Option String)
  funNameStack : List String
  sawReturnStack : List Bool
  loopDepth : Int
  lhsMode : Bool
  frames : List CheckFrame
  inits : List (Nat × List (String × Bool))
deriving Repr

/-- `errors.error(text, lineno)`: append the message and raise the flag. -/
def errReport (msg : String) (st : CheckSt) : CheckSt :=
  { st with msgs := st.msgs ++ [msg], hadErrors := true }

/-- `Check._scope(name, parent)`: a fresh `Symtab` chained to `parent`.
The scope's display name is irrelevant to the semantics and dropped. -/
def newScope (parent : Nat) (st : CheckSt) : Nat × CheckSt :=
  (st.frames.length, { st with frames := st.frames ++ [⟨some parent, []⟩] })

def lookupFrame (fr : CheckFrame) (name : String) : Option PNode :=
  (fr.table.find? (fun p => p.1 == name)).map (·.2)

/-- Modelled from the spec (§4.1, `symtab.py` absent): `add(name, decl)` fails
with DuplicateSymbol if `name` already exists in *this* scope.  The checker
catches the exception and reports `str(ex)`; the exception text itself is
unknowable from the sources, so it is modelled as `"DuplicateSymbol: <name>"`.
No claim depends on that text. -/
def symtabAdd (envId : Nat) (name : String) (decl : PNode) (st : CheckSt) :
    Except String CheckSt :=
  match st.frames[envId]? with
  | none => .ok st
  | some fr =>
    if (lookupFrame fr name).isSome then
      .error ("DuplicateSymbol: " ++ name)
    else
      .ok { st with frames := st.frames.set envId ⟨fr.parent, fr.table ++ [(name, decl)]⟩ }

/-- Modelled from the spec (§4.1): `get(name)` walks the parent chain, returns
absent if unresolved.  The fuel bounds the chain length; parents are always
older frames, so `frames.length` is ample. -/
def stGetAux : Nat → Nat → String → CheckSt → Option PNode
  | 0, _, _, _ => none
  | fuel + 1, e, name, st =>
    match st.frames[e]? with
    | none => none
    | some fr =>
      match lookupFrame fr name with
      | some d => some d
      | none =>
        match fr.parent with
        | some p => stGetAux fuel p name st
        | none => none

def symtabGet (envId : Nat) (name : String) (st : CheckSt) : Option PNode :=
  stGetAux (st.frames.length + 1) envId name st

/-- `Check._find_decl_env`: the innermost scope of the chain whose table holds
`name`. -/
def findDeclEnvAux : Nat → Nat → String → CheckSt → Option Nat
  | 0, _, _, _ => none
  | fuel + 1, e, name, st =>
    match st.frames[e]? with
    | none => none
    | some fr =>
      if (lookupFrame fr name).isSome then some e
      else
        match fr.parent with
        | some p => findDeclEnvAux fuel p name st
        | none => none

def findDeclEnv (envId : Nat) (name : String) (st : CheckSt) : Option Nat :=
  findDeclEnvAux (st.frames.length + 1) envId name st

def initsOf (envId : Nat) (st : CheckSt) : Option (List (String × Bool)) :=
  (st.inits.find? (fun p => p.1 == envId)).map (·.2)

/-- `Check._is_initialized`: walk the chain; the first scope whose (non-empty)
initialization map mentions `name` answers. -/
def isInitAux : Nat → Nat → String → CheckSt → Option Bool
  | 0, _, _, _ => none
  | fuel + 1, e, name, st =>
    let hit : Option Bool :=
      match initsOf e st with
      | some m => (m.find? (fun p => p.1 == name)).map (·.2)
      | none => none
    match hit with
    | some b => some b
    | none =>
      match st.frames[e]? with
      | none => none
      | some fr =>
        match fr.parent with
        | some p => isInitAux fuel p name st
        | none => none

def isInitialized (envId : Nat) (name : String) (st : CheckSt) : Option Bool :=
  isInitAux (st.frames.length + 1) envId name st

/-- `Check._set_initialized`: record the flag in the scope where `name` is
declared (no declaring scope → no-op: the undeclared error is reported by the
`Identifier` visit). -/
def setInitialized (envId : Nat) (name : String) (value : Bool) (st : CheckSt) : CheckSt :=
  match findDeclEnv envId name st with
  | none => st
  | some de =>
    if (st.inits.find? (fun p => p.1 == de)).isSome then
      { st with inits := st.inits.map (fun p =>
          if p.1 == de then (p.1, (name, value) :: p.2) else p) }
    else
      { st with inits := st.inits ++ [(de, [(name, value)])] }

/-- `Check.visit(Identifier)`: resolve through the scope chain (else
"undeclared"); outside lvalue mode a `False` initialization flag reports
use-before-assignment.  Returns the node's `type` decoration. -/
def chkIdent (fuel : Nat) (name : String) (envId : Nat) (st : CheckSt) :
    Option String × CheckSt :=
  match symtabGet envId name st with
  | none => (none, errReport ("Identificador no declarado: " ++ name) st)
  | some decl =>
    let ty : Option String :=
      match decl with
      | .varDecl _ dty _ => resolveType fuel dty
      | .param _ pty => resolveType fuel pty
      | _ => resolveType fuel none
    let st :=
      if ¬ st.lhsMode then
        if isInitialized envId name st = some false then
          errReport ("Uso de variable antes de asignación: " ++ name) st
        else st
      else st
    (ty, st)

/-- The parameter loop of `Check.visit(VarDecl)`'s function branch: type
validity, no explicit array sizes, duplicates, registration, and parameters
start initialized. -/
def chkParams (fuel : Nat) (ps : List PNode) (seen : List String) (fenv : Nat)
    (st : CheckSt) : CheckSt :=
  match ps with
  | [] => st
  | p :: rest =>
    match p with
    | .param pname pty =>
      let ptypeName := resolveType fuel pty
      let st :=
        if ¬ isType fuel ptypeName pty then
          errReport ("Tipo inválido para parámetro \x27" ++ pname ++ "\x27: " ++
            optPyStr ptypeName) st
        else st
      let st :=
        match pty with
        | some (.arrayType _ (some _)) =>
          errReport ("Parámetro arreglo \x27" ++ pname ++
            "\x27 no debe tener tamaño explícito") st
        | _ => st
      let st :=
        if pname ∈ seen then
          errReport ("Parámetro duplicado \x27" ++ pname ++ "\x27") st
        else st
      let st :=
        match symtabAdd fenv pname (.param pname pty) st with
        | .ok st' => setInitialized fenv pname true st'
        | .error msg => errReport msg st
      chkParams fuel rest (seen ++ [pname]) fenv st
    | _ => chkParams fuel rest seen fenv st

/-! ## `Check` traversal (`checker.py`)

`chk` is `visit` (multimethod dispatch becomes a match); it returns the
`type` decoration the visit leaves on the node (`getattr(x, "type", None)`)
together with the updated state, which is exactly what `Check._expr_type`
reads.  The other members embed the `for` loops of the corresponding visit
methods.  All recursion is structural on the fuel. -/

mutual

def chk : Nat → PNode → Nat → CheckSt → (Option String × CheckSt)
  | 0, _, _, st => (none, st)
  | fuel + 1, n, env, st =>
    match n with
    | .program body => (none, chkStmts fuel body env st)
    | .block stmts =>
      let (localId, st) := newScope env st
      (none, chkStmts fuel stmts localId st)
    | .varDecl name ty init => (none, chkVarDecl fuel name ty init env st)
    | .printStmt args => (none, chkPrintArgs fuel args env st)
    | .returnStmt e =>
      let (valueType, st) :=
        match e with
        | some ex => chk fuel ex env st
        | none => (none, st)
      match st.funRetStack.head?.join with
      | none => (none, st)
      | some exp =>
        if exp = "void" then
          match valueType with
          | some vt =>
            (none, errReport ("Return con valor en función void (valor " ++ vt ++ ")") st)
          | none => (none, st)
        else
          let st :=
            if valueType ≠ some exp then
              errReport ("Tipo de return inválido: " ++ optPyStr valueType ++
                " → se esperaba " ++ exp) st
            else st
          let st :=
            match st.sawReturnStack with
            | [] => st
            | _ :: t => { st with sawReturnStack := true :: t }
          (none, st)
    | .ifStmt cond thenS otherwise =>
      let st :=
        match cond with
        | some c =>
          let (ct, st) := chk fuel c env st
          if ct ≠ some "boolean" then errReport "La condición del if debe ser boolean" st
          else st
        | none => st
      let st :=
        match thenS with
        | some t =>
          let (thenId, st) := newScope env st
          (chk fuel t thenId st).2
        | none => st
      let st :=
        match otherwise with
        | some o =>
          let (elseId, st) := newScope env st
          (chk fuel o elseId st).2
        | none => st
      (none, st)
    | .whileStmt cond body =>
      let st :=
        match cond with
        | some c =>
          let (ct, st) := chk fuel c env st
          if ct ≠ some "boolean" then errReport "La condición del while debe ser boolean" st
          else st
        | none => st
      let st := { st with loopDepth := st.loopDepth + 1 }
      let st :=
        match body with
        | some b =>
          let (wId, st) := newScope env st
          (chk fuel b wId st).2
        | none => st
      (none, { st with loopDepth := st.loopDepth - 1 })
    | .doWhileStmt body cond =>
      let st := { st with loopDepth := st.loopDepth + 1 }
      let st :=
        match body with
        | some b =>
          let (dId, st) := newScope env st
          (chk fuel b dId st).2
        | none => st
      let st := { st with loopDepth := st.loopDepth - 1 }
      let st :=
        match cond with
        | some c =>
          let (ct, st) := chk fuel c env st
          if ct ≠ some "boolean" then
            errReport "La condición del do-while debe ser boolean" st
          else st
        | none => st
      (none, st)
    | .forStmt finit cond step body =>
      let (localId, st) := newScope env st
      let st := { st with loopDepth := st.loopDepth + 1 }
      let st :=
        match finit with
        | some ie => (chk fuel ie localId st).2
        | none => st
      let st :=
        match cond with
        | some ce =>
          let (ct, st) := chk fuel ce localId st
          if ct ≠ some "boolean" then errReport "La condición del for debe ser boolean" st
          else st
        | none => st
      let st :=
        match step with
        | some se => (chk fuel se localId st).2
        | none => st
      let st :=
        match body with
        | some be => (chk fuel be localId st).2
        | none => st
      (none, { st with loopDepth := st.loopDepth - 1 })
    | .ident name => chkIdent fuel name env st
    | .assign target value =>
      let st := { st with lhsMode := true }
      let (lhsT, st) := chk fuel target env st
      let st := { st with lhsMode := false }
      let (rhsT, st) := chk fuel value env st
      let st :=
        match lhsT, rhsT with
        | some a, some b =>
          if ¬ typesEqual a b then
            errReport ("Tipos incompatibles en asignación: " ++ a ++ " = " ++ b) st
          else st
        | _, _ => st
      let st :=
        match target with
        | .ident tn => setInitialized env tn true st
        | _ => st
      (lhsT <|> rhsT, st)
    | .binOper op l r =>
      let (lt, st) := chk fuel l env st
      let (rt, st) := chk fuel r env st
      match checkBinop op lt rt with
      | none =>
        (none, errReport ("Operación inválida: " ++ optPyStr lt ++ " " ++ op ++ " " ++
          optPyStr rt) st)
      | some res => (some res, st)
    | .unaryOper op e =>
      let (et, st) := chk fuel e env st
      match checkUnaryop op et with
      | none =>
        (none, errReport ("Operador unario inválido: " ++ op ++ " " ++ optPyStr et) st)
      | some res => (some res, st)
    | .postfixOper op e =>
      let (et, st) := chk fuel e env st
      let st :=
        if et ≠ some "integer" then
          errReport ("El operador " ++ op ++ " requiere \x27integer\x27, llegó " ++
            optPyStr et) st
        else st
      (et, st)
    | .preInc e =>
      let (et, st) := chk fuel e env st
      let st :=
        if et ≠ some "integer" then
          errReport "El operador ++ requiere \x27integer\x27" st
        else st
      (et, st)
    | .preDec e =>
      let (et, st) := chk fuel e env st
      let st :=
        if et ≠ some "integer" then
          errReport "El operador -- requiere \x27integer\x27" st
        else st
      (et, st)
    | .arrayIndex arr idx =>
      let (at0, st) := chk fuel arr env st
      let (it, st) := chk fuel idx env st
      let st :=
        if it ≠ some "integer" then
          errReport ("El índice de arreglo debe ser \x27integer\x27, llegó " ++
            optPyStr it) st
        else st
      match arrayBaseFromName at0 with
      | none =>
        let st :=
          match at0 with
          | some a =>
            errReport ("Intento de indexar un valor no-arreglo de tipo " ++ a) st
          | none => st
        (none, st)
      | some base => (some base, st)
    | .call f args =>
      match f with
      | .ident "array_init" => (none, chkEach fuel args env st)
      | _ =>
        let fnDecl :=
          match f with
          | .ident fname => symtabGet env fname st
          | _ => none
        match fnDecl with
        | some (.varDecl dname (some (.funcType fret fparams)) _) =>
          let st :=
            if args.length ≠ fparams.length then
              errReport ("Argumentos inválidos para \x27" ++ dname ++
                "\x27: se esperaban " ++ decStr fparams.length ++ ", llegaron " ++
                decStr args.length) st
            else st
          let st := chkCallArgs fuel (args.zip fparams) dname env st
          let rty : Option String :=
            match fret with
            | none => some "void"
            | some r => resolveType fuel (some r)
          (rty, st)
        | _ =>
          let fname :=
            match f with
            | .ident fn => fn
            | _ => "?"
          let st := errReport ("Función \x27" ++ fname ++ "\x27 no declarada") st
          (none, chkEach fuel args env st)
    | .intLit _ => (some "integer", st)
    | .floatLit _ => (some "float", st)
    | .boolLit _ => (some "boolean", st)
    | .charLit _ => (some "char", st)
    | .strLit _ => (some "string", st)
    | .param _ _ => (none, st)
    | .simpleType _ => (none, st)
    | .arrayType _ _ => (none, st)
    | .funcType _ _ => (none, st)
  termination_by structural fuel _ _ _ => fuel

def chkStmts : Nat → List PNode → Nat → CheckSt → CheckSt
  | 0, _, _, st => st
  | fuel + 1, ss, env, st =>
    match ss with
    | [] => st
    | s :: rest => chkStmts fuel rest env (chk fuel s env st).2
  termination_by structural fuel _ _ _ => fuel

/-- `Check.visit(VarDecl)`. -/
def chkVarDecl : Nat → String → Option PNode → Option PNode → Nat → CheckSt → CheckSt
  | 0, _, _, _, _, st => st
  | fuel + 1, name, ty, init, env, st =>
    let tname := resolveType fuel ty
    match ty with
    | some (.funcType fret fparams) =>
      let st :=
        if name = "main" then
          let retv : Option String :=
            match fret with
            | none => some "void"
            | some r => resolveType fuel (some r)
          if retv ≠ some "void" then
            errReport "Tipo de retorno inválido para \x27main\x27 (debe ser void)" st
          else st
        else st
      let st :=
        match init with
        | some (.block _) => st
        | _ => errReport ("Falta cuerpo de función \x27" ++ name ++ "\x27") st
      let st :=
        match symtabAdd env name (.varDecl name ty init) st with
        | .ok st' => st'
        | .error msg => errReport msg st
      let (fenv, st) := newScope env st
      let st := chkParams fuel fparams [] fenv st
      let expectedRet : Option String :=
        match fret with
        | none => some "void"
        | some r => resolveType fuel (some r)
      let st := { st with
        funRetStack := expectedRet :: st.funRetStack,
        funNameStack := name :: st.funNameStack,
        sawReturnStack := false :: st.sawReturnStack }
      let st :=
        match init with
        | some (.block bstmts) => (chk fuel (.block bstmts) fenv st).2
        | _ => st
      let saw := st.sawReturnStack.head?.getD false
      let exp : Option String := st.funRetStack.head?.join
      let st := { st with
        sawReturnStack := st.sawReturnStack.tail,
        funNameStack := st.funNameStack.tail,
        funRetStack := st.funRetStack.tail }
      if exp ≠ some "void" ∧ ¬ saw then
        errReport ("La función \x27" ++ name ++ "\x27 no retorna un valor (retorno " ++
          optPyStr exp ++ ")") st
      else st
    | _ =>
      let st :=
        if ¬ isType fuel tname ty then
          errReport ("Tipo inválido para variable \x27" ++ name ++ "\x27: " ++
            optPyStr tname) st
        else st
      let st :=
        match ty with
        | some (.arrayType _ (some sz)) =>
          match sz with
          | .intLit v =>
            if v < 0 then errReport ("Tamaño de array negativo en \x27" ++ name ++ "\x27") st
            else st
          | .boolLit _ => st
          | _ =>
            errReport ("Tamaño de array inválido para \x27" ++ name ++
              "\x27: debe ser entero literal") st
        | _ => st
      let st :=
        match symtabAdd env name (.varDecl name ty init) st with
        | .ok st' => st'
        | .error msg => errReport msg st
      match init with
      | none => setInitialized env name false st
      | some ini =>
        match ty, ini with
        | some (.arrayType abase asize), .call (.ident "array_init") iargs =>
          let baseExpected := resolveType fuel abase
          let sizeExpected : Option Int :=
            match asize with
            | some (.intLit v) => some v
            | some (.boolLit bv) => some (if bv then 1 else 0)
            | _ => none
          let (count, st) := chkInitArgs fuel iargs baseExpected name env st
          let st :=
            match sizeExpected with
            | some se =>
              if (count : Int) ≠ se then
                errReport ("Tamaño de inicialización incompatible para \x27" ++ name ++
                  "\x27: " ++ decStr count ++ " elementos, se esperaba " ++ intStr se) st
              else st
            | none => st
          setInitialized env name true st
        | _, _ =>
          let (initT, st) := chk fuel ini env st
          let st :=
            match initT, tname with
            | some it, some tn =>
              if ¬ typesEqual it tn then
                errReport ("Incompatibilidad en inicialización de \x27" ++ name ++
                  "\x27: " ++ it ++ " → " ++ tn) st
              else st
            | _, _ => st
          setInitialized env name true st
  termination_by structural fuel _ _ _ _ _ => fuel

/-- The argument loop of `Check.visit(PrintStmt)`. -/
def chkPrintArgs : Nat → List PNode → Nat → CheckSt → CheckSt
  | 0, _, _, st => st
  | fuel + 1, args, env, st =>
    match args with
    | [] => st
    | a :: rest =>
      let st :=
        match a with
        | .ident nm =>
          if isInitialized env nm st = some false then
            errReport ("Uso de variable antes de asignación: " ++ nm) st
          else st
        | _ => st
      chkPrintArgs fuel rest env (chk fuel a env st).2
  termination_by structural fuel _ _ _ => fuel

/-- Visiting a list of expressions for effect only (the `array_init` and
unknown-callee argument loops). -/
def chkEach : Nat → List PNode → Nat → CheckSt → CheckSt
  | 0, _, _, st => st
  | fuel + 1, args, env, st =>
    match args with
    | [] => st
    | a :: rest => chkEach fuel rest env (chk fuel a env st).2
  termination_by structural fuel _ _ _ => fuel

/-- The `zip(args, params)` loop of `Check.visit(Call)`. -/
def chkCallArgs : Nat → List (PNode × PNode) → String → Nat → CheckSt → CheckSt
  | 0, _, _, _, st => st
  | fuel + 1, pairs, dname, env, st =>
    match pairs with
    | [] => st
    | (arg, pa) :: rest =>
      let (at0, st) := chk fuel arg env st
      let pt :=
        match pa with
        | .param _ pty => resolveType fuel pty
        | _ => none
      let st :=
        match at0, pt with
        | some a, some p =>
          if a ≠ p then
            errReport ("Argumento incompatible en \x27" ++ dname ++ "\x27: " ++ a ++
              " → " ++ p) st
          else st
        | _, _ => st
      chkCallArgs fuel rest dname env st
  termination_by structural fuel _ _ _ _ => fuel

/-- The `array_init` element loop of `Check.visit(VarDecl)`: type-checks
every element against the base type and counts them. -/
def chkInitArgs : Nat → List PNode → Option String → String → Nat → CheckSt →
    (Nat × CheckSt)
  | 0, _, _, _, _, st => (0, st)
  | fuel + 1, args, baseExpected, name, env, st =>
    match args with
    | [] => (0, st)
    | a :: rest =>
      let (at0, st) := chk fuel a env st
      let st :=
        match at0, baseExpected with
        | some av, some bv =>
          if av ≠ bv then
            errReport ("Elemento de array incompatible en \x27" ++ name ++ "\x27: " ++
              av ++ " → " ++ bv) st
          else st
        | _, _ => st
      let (c, st) := chkInitArgs fuel rest baseExpected name env st
      (c + 1, st)
  termination_by structural fuel _ _ _ _ _ => fuel

end

/-- `Check.run`: fresh checker instance, a fresh global `Symtab`, one pass. -/
def checkRun (fuel : Nat) (prog : PNode) : CheckSt :=
  let st0 : CheckSt :=
    { msgs := [], hadErrors := false, funRetStack := [], funNameStack := [],
      sawReturnStack := [], loopDepth := 0, lhsMode := false,
      frames := [⟨none, []⟩], inits := [] }
  (chk fuel prog 0 st0).2

/-- The diagnostics (message texts) of one analysis run. -/
def analyze (fuel : Nat) (prog : PNode) : List String :=
  (checkRun fuel prog).msgs

/-- Scenario A: `x: integer; y: integer = x;` -/
def progA : PNode := .program
  [ .varDecl "x" (some (.simpleType "integer")) none,
    .varDecl "y" (some (.simpleType "integer")) (some (.ident "x")) ]

/-- `x: integer = 1; y: integer = x;` (declaration with initializer). -/
def progAInit : PNode := .program
  [ .varDecl "x" (some (.simpleType "integer")) (some (.intLit 1)),
    .varDecl "y" (some (.simpleType "integer")) (some (.ident "x")) ]

/-- `x: integer; x = 1; y: integer = x;` (simple-identifier assignment). -/
def progAAssign : PNode := .program
  [ .varDecl "x" (some (.simpleType "integer")) none,
    .assign (.ident "x") (.intLit 1),
    .varDecl "y" (some (.simpleType "integer")) (some (.ident "x")) ]

/-- Scenario B: `main: function integer() = { return 1; };` -/
def progB : PNode := .program
  [ .varDecl "main" (some (.funcType (some (.simpleType "integer")) []))
      (some (.block [.returnStmt (some (.intLit 1))])) ]

/-- Scenario D: `f: function integer(a: integer) = { if (a > 0) return 1; };` -/
def progD : PNode := .program
  [ .varDecl "f"
      (some (.funcType (some (.simpleType "integer"))
        [.param "a" (some (.simpleType "integer"))]))
      (some (.block
        [ .ifStmt (some (.binOper ">" (.ident "a") (.intLit 0)))
            (some (.returnStmt (some (.intLit 1)))) none ])) ]

/-- `f: function integer(a: integer) = { };` (no return anywhere). -/
def progDEmpty : PNode := .program
  [ .varDecl "f"
      (some (.funcType (some (.simpleType "integer"))
        [.param "a" (some (.simpleType "integer"))]))
      (some (.block [])) ]

/-- `i: integer; a: array[2] integer; a[i] = 0;` — the uninitialized `i`
is read inside the index of an assignment target. -/
def progIdx : PNode := .program
  [ .varDecl "i" (some (.simpleType "integer")) none,
    .varDecl "a" (some (.arrayType (some (.simpleType "integer")) (some (.intLit 2)))) none,
    .assign (.arrayIndex (.ident "a") (.ident "i")) (.intLit 0) ]

/-! ## Code generator (`bminor2llvm.py`)

### String helpers mirroring the Python `str` methods used there -/

/-- Python `str.endswith(suf)`. -/
def pyEndsWith (s suf : String) : Bool := leadMatch suf.data.reverse s.data.reverse

/-- Characters before the first occurrence of `sep` (`s.split(sep)[0]` when
`sep` occurs). -/
def takeUntilSub (sep : List Char) : List Char → List Char
  | [] => []
  | c :: cs => if leadMatch sep (c :: cs) then [] else c :: takeUntilSub sep cs

/-- Does `sep` occur as a contiguous substring? (Python `sep in s`.) -/
def hasSubAux (sep : List Char) : List Char → Bool
  | [] => leadMatch sep []
  | c :: cs => leadMatch sep (c :: cs) || hasSubAux sep cs

def hasSub (s sep : String) : Bool := hasSubAux sep.data s.data

def splitSubAux (sep : List Char) : Nat → List Char → List Char → List String
  | 0, _, cur => [String.mk cur.reverse]
  | _ + 1, [], cur => [String.mk cur.reverse]
  | f + 1, c :: cs, cur =>
    if leadMatch sep (c :: cs) then
      String.mk cur.reverse :: splitSubAux sep f (List.drop sep.length (c :: cs)) []
    else splitSubAux sep f cs (c :: cur)

/-- Python `s.split(sep)` for a non-empty separator string. -/
def pySplitOnStr (s sep : String) : List String :=
  splitSubAux sep.data s.data.length s.data []

/-- `ty.split(' x ')[-1].rstrip(']')`: the element type of an LLVM array type
string such as `[3 x i32]`. -/
def elemTyOf (ty : String) : String :=
  String.mk ((((pySplitOnStr ty " x ").getLastD ty).data.reverse.dropWhile
    (fun c => c = ']')).reverse)

/-- `gty.split(' x ')[0].lstrip('[')`: the literal length of an LLVM array
type string such as `[3 x i32]`. -/
def firstDimOf (gty : String) : String :=
  String.mk ((takeUntilSub (" x ".data) gty.data).dropWhile (fun c => c = '['))

/-- First-match association-list lookup; entries are pushed at the front, so
this matches Python-dict assignment-overwrites semantics. -/
def lookupA {α : Type} (xs : List (String × α)) (k : String) : Option α :=
  match xs.find? (fun p => p.1 == k) with
  | some p => some p.2
  | none => none

/-! ### IR emitter (`IREmitter`) and generator state (`Codegen` fields) -/

/-- `ValueRef`: (LLVM type, register name or immediate). -/
structure ValueRef where
  ty : String
  name : String
deriving Repr, DecidableEq

/-- The emitter (`lines`, `tmp_counter`, `blk_counter`) together with the
`Codegen` instance fields.  `fn_param_index` is written but never read in the
source and is omitted. -/
structure GenSt where
  lines : List String
  tmpCounter : Nat
  blkCounter : Nat
  globals : List (String × String × String)
  fnSigs : List (String × String × List String)
  arrLen : List (String × ValueRef)
  fnRetTy : Option String
  currentFnEndLabel : Option String
  currentFnName : Option String
  curFnName : Option String
  curFnParams : List String
deriving Repr, DecidableEq

def genSt0 : GenSt :=
  { lines := [], tmpCounter := 0, blkCounter := 0, globals := [], fnSigs := [],
    arrLen := [], fnRetTy := none, currentFnEndLabel := none,
    currentFnName := none, curFnName := none, curFnParams := [] }

/-- `IREmitter.emit`. -/
def emitLn (ln : String) (st : GenSt) : GenSt :=
  { st with lines := st.lines ++ [ln] }

/-- The register name `%t<k>` produced by the `k`-th call of `IREmitter.tmp`. -/
def tname (k : Nat) : String := "%t" ++ decStr k

/-- `IREmitter.tmp`: bump the counter, return `f"%t{self.tmp_counter}"`. -/
def tmpReg (st : GenSt) : String × GenSt :=
  (tname (st.tmpCounter + 1), { st with tmpCounter := st.tmpCounter + 1 })

/-- `IREmitter.label`: bump the block counter, return `f"{base}{self.blk_counter}"`. -/
def genLabel (base : String) (st : GenSt) : String × GenSt :=
  (base ++ decStr (st.blkCounter + 1), { st with blkCounter := st.blkCounter + 1 })

/-- The ubiquitous source idiom `r = self.ir.tmp(); self.ir.emit(f"  {r} = {rhs}")`:
allocate a fresh register and emit the (indented) instruction defining it. -/
def freshDef (rhs : String) (st : GenSt) : String × GenSt :=
  let (r, st) := tmpReg st
  (r, emitLn ("  " ++ r ++ " = " ++ rhs) st)

/-- `IREmitter.gep_cstr` (note: the source emits this definition with no
leading indentation). -/
def gepCstr (gname : String) (st : GenSt) : String × GenSt :=
  let (p, st) := tmpReg st
  (p, emitLn (p ++ " = getelementptr inbounds ([4 x i8], [4 x i8]* " ++ gname ++
    ", i32 0, i32 0)") st)

/-- `IREmitter.header`. -/
def irHeader (st : GenSt) : GenSt :=
  let st := emitLn "declare i32 @printf(i8*, ...)" st
  let st := emitLn "declare i8* @malloc(i32)" st
  let st := emitLn "" st
  let st := emitLn "@.fmt_int   = private unnamed_addr constant [4 x i8] c\"%d\\0A\\00\"" st
  let st := emitLn "@.fmt_float = private unnamed_addr constant [4 x i8] c\"%f\\0A\\00\"" st
  let st := emitLn "@.fmt_char  = private unnamed_addr constant [4 x i8] c\"%c\\0A\\00\"" st
  let st := emitLn "@.fmt_str   = private unnamed_addr constant [4 x i8] c\"%s\\0A\\00\"" st
  emitLn "" st

/-- `IREmitter.finalize`: `"\n".join(self.lines) + "\n"`. -/
def irFinalize (st : GenSt) : String := joinSep "\n" st.lines ++ "\n"

/-! ### Types (`type_to_llvm` and friends) -/

def LLVM_INT : String := "i32"

def LLVM_BOOL : String := "i1"

def LLVM_CHAR : String := "i8"

def LLVM_FLOAT : String := "double"

def LLVM_STRING : String := "i8*"

def charLower (c : Char) : Char :=
  if 'A' ≤ c ∧ c ≤ 'Z' then Char.ofNat (c.toNat + 32) else c

/-- Python `str.lower()` (ASCII; type names are ASCII). -/
def pyLower (s : String) : String := String.mk (s.data.map charLower)

/-- `type_to_llvm` (the `isinstance(t, str)` branch never arises here: the
embedding always passes AST nodes). -/
def typeToLLVM (t : Option PNode) : String :=
  match t with
  | some (.simpleType nm) =>
    let name := pyLower nm
    if name = "int" ∨ name = "integer" then LLVM_INT
    else if name = "bool" ∨ name = "boolean" then LLVM_BOOL
    else if name = "char" then LLVM_CHAR
    else if name = "float" then LLVM_FLOAT
    else if name = "string" then LLVM_STRING
    else if name = "void" then "void"
    else LLVM_INT
  | _ => LLVM_INT

/-- `param_type_to_llvm`. -/
def paramTypeToLLVM (t : Option PNode) : String :=
  match t with
  | some (.arrayType base _) => typeToLLVM base ++ "*"
  | _ => typeToLLVM t

/-- `get_size`. -/
def getSize (t : Option PNode) : Nat :=
  let llty := typeToLLVM t
  if llty = LLVM_FLOAT then 8
  else if llty = LLVM_INT ∨ llty = LLVM_BOOL then 4
  else if llty = LLVM_CHAR then 1
  else 4

/-! ### Codegen `Scope`: a chain of frames, innermost first -/

def GScope := List (List (String × ValueRef))

/-- `Scope.get`: current frame, then the parents. -/
def scopeGet : GScope → String → Option ValueRef
  | [], _ => none
  | fr :: rest, name =>
    match lookupA fr name with
    | some v => some v
    | none => scopeGet rest name

/-- `Scope.set`: assign in the current frame. -/
def scopeSet (sc : GScope) (name : String) (v : ValueRef) : GScope :=
  match sc with
  | [] => [[(name, v)]]
  | fr :: rest => ((name, v) :: fr) :: rest

/-! ### Insertion into the header region (`_declare_len_global`, `_string_global`) -/

/-- Python `list.insert(i, x)`. -/
def insertPy (i : Nat) (ln : String) (lines : List String) : List String :=
  lines.take i ++ [ln] ++ lines.drop i

/-- `insert_at`: one past the last line satisfying the predicate, else 0. -/
def lastIdxAux (p : String → Bool) : List String → Nat → Nat → Nat
  | [], _, acc => acc
  | l :: rest, j, acc => lastIdxAux p rest (j + 1) (if p l then j + 1 else acc)

/-- `Codegen._declare_len_global`. -/
def declareLenGlobal (gname : String) (st : GenSt) : GenSt :=
  let decl := gname ++ " = global i32 0"
  if st.lines.any (fun ln => pyStartsWith ln gname) then st
  else
    let insertAt := lastIdxAux (fun ln => pyStartsWith ln "@.fmt_") st.lines 0 0
    { st with lines := insertPy insertAt decl st.lines }

/-- Stand-in for Python's process-randomised `abs(hash(s)) & 0xFFFFFF` (see
the header note; no claim depends on its value). -/
def pyStrHash (s : String) : Nat :=
  (s.data.foldl (fun a c => a * 31 + c.toNat) 7) % 16777216

/-- `Codegen._string_global` (string bytes are modelled per character; the
programs under the claims are ASCII). -/
def stringGlobal (s : String) (st : GenSt) : String × GenSt :=
  let key := "@.str." ++ hexStr (pyStrHash s)
  if st.lines.any (fun ln => pyStartsWith ln (key ++ " =")) then (key, st)
  else
    let bs := s.data
    let initS := joinSep ", " (bs.map (fun b => "i8 " ++ decStr b.toNat)) ++ ", i8 0"
    let line := key ++ " = private unnamed_addr constant [" ++ decStr (bs.length + 1) ++
      " x i8] [" ++ initS ++ "]"
    let insertAt := lastIdxAux
      (fun ln => pyStartsWith ln "@.fmt_" || pyStartsWith ln "@.len.") st.lines 0 0
    (key, { st with lines := insertPy insertAt line st.lines })

/-! ### Non-recursive generator helpers -/

/-- `Codegen._as_i1`: canonical truthiness reduction to `i1`. -/
def asI1 (v : ValueRef) (st : GenSt) : ValueRef × GenSt :=
  if v.ty = LLVM_BOOL then (v, st)
  else if v.ty = LLVM_INT ∨ v.ty = LLVM_CHAR then
    let (cmpv, st) := freshDef ("icmp ne " ++ v.ty ++ " " ++ v.name ++ ", 0") st
    (⟨LLVM_BOOL, cmpv⟩, st)
  else if v.ty = LLVM_FLOAT then
    let (cmpv, st) := freshDef ("fcmp one double " ++ v.name ++ ", 0.0") st
    (⟨LLVM_BOOL, cmpv⟩, st)
  else (⟨LLVM_BOOL, "true"⟩, st)

/-- `Codegen._gen_print`. -/
def genPrint (v : ValueRef) (st : GenSt) : GenSt :=
  if v.ty = LLVM_INT ∨ v.ty = LLVM_BOOL then
    let (fmt, st) := gepCstr "@.fmt_int" st
    emitLn ("  call i32 (i8*, ...) @printf(i8* " ++ fmt ++ ", i32 " ++ v.name ++ ")") st
  else if v.ty = LLVM_CHAR then
    let (fmt, st) := gepCstr "@.fmt_char" st
    emitLn ("  call i32 (i8*, ...) @printf(i8* " ++ fmt ++ ", i8 " ++ v.name ++ ")") st
  else if v.ty = LLVM_FLOAT then
    let (fmt, st) := gepCstr "@.fmt_float" st
    emitLn ("  call i32 (i8*, ...) @printf(i8* " ++ fmt ++ ", double " ++ v.name ++ ")") st
  else if v.ty = LLVM_STRING then
    let (fmt, st) := gepCstr "@.fmt_str" st
    emitLn ("  call i32 (i8*, ...) @printf(i8* " ++ fmt ++ ", i8* " ++ v.name ++ ")") st
  else
    let (fmt, st) := gepCstr "@.fmt_int" st
    emitLn ("  call i32 (i8*, ...) @printf(i8* " ++ fmt ++ ", i32 " ++ v.name ++ ")") st

/-- `Codegen._gen_array_ptr`, fallback case. -/
def genArrayPtrFallback (st : GenSt) : String × String × GenSt :=
  let (base, st) := freshDef "bitcast i8* null to i32*" st
  (base, LLVM_INT, st)

/-- `Codegen._gen_array_ptr`, the global-array tail shared by the unresolved
and non-matching identifier paths. -/
def genArrayPtrGlobal (nm : String) (st : GenSt) : String × String × GenSt :=
  match lookupA st.globals nm with
  | some (gty, gname) =>
    if pyStartsWith gty "[" then
      let tpart := elemTyOf gty
      let (baseptr, st) := freshDef ("getelementptr inbounds " ++ gty ++ ", " ++ gty ++
        "* " ++ gname ++ ", i32 0, i32 0") st
      (baseptr, tpart, st)
    else genArrayPtrFallback st
  | none => genArrayPtrFallback st

/-- `Codegen._gen_array_ptr` (reads only `idx.array`, which is what it is
passed here). -/
def genArrayPtr (arrNode : PNode) (sc : GScope) (st : GenSt) : String × String × GenSt :=
  match arrNode with
  | .ident nm =>
    match scopeGet sc nm with
    | some v =>
      if pyStartsWith v.ty "[" then
        let tpart := elemTyOf v.ty
        let (baseptr, st) := freshDef ("getelementptr inbounds " ++ v.ty ++ ", " ++ v.ty ++
          "* " ++ v.name ++ ", i32 0, i32 0") st
        (baseptr, tpart, st)
      else if pyEndsWith v.ty "*" then
        let baseT := String.mk v.ty.data.dropLast
        let (loaded, st) := freshDef ("load " ++ v.ty ++ ", " ++ v.ty ++ "* " ++ v.name) st
        (loaded, baseT, st)
      else genArrayPtrGlobal nm st
    | none => genArrayPtrGlobal nm st
  | _ => genArrayPtrFallback st

/-- `Codegen._try_arg_length` (its `scope` parameter is unused in the source). -/
def tryArgLength (argNode : PNode) (st : GenSt) : Option ValueRef × GenSt :=
  match argNode with
  | .ident nm =>
    match lookupA st.arrLen nm with
    | some v =>
      if pyEndsWith v.ty "*" then
        let (reg, st) := freshDef ("load i32, i32* " ++ v.name) st
        (some ⟨LLVM_INT, reg⟩, st)
      else (some ⟨LLVM_INT, v.name⟩, st)
    | none =>
      match lookupA st.globals nm with
      | some (gty, _) =>
        if pyStartsWith gty "[" ∧ hasSub gty " x " then
          (some ⟨LLVM_INT, firstDimOf gty⟩, st)
        else (none, st)
      | none => (none, st)
  | .arrayIndex (.ident base) _ =>
    match lookupA st.arrLen base with
    | some v =>
      if pyEndsWith v.ty "*" then
        let (reg, st) := freshDef ("load i32, i32* " ++ v.name) st
        (some ⟨LLVM_INT, reg⟩, st)
      else (some ⟨LLVM_INT, v.name⟩, st)
    | none => (none, st)
  | _ => (none, st)

/-- The length-injection loop of the user-call case of `_gen_expr`
(`for i, arg_node in enumerate(e.args): ...`). -/
def genLenStores : List PNode → String → Nat → GenSt → GenSt
  | [], _, _, st => st
  | a :: rest, callee, i, st =>
    let (len?, st) := tryArgLength a st
    let st :=
      match len? with
      | some lv =>
        let gname := "@.len." ++ callee ++ ".p" ++ decStr i
        let st := declareLenGlobal gname st
        emitLn ("  store i32 " ++ lv.name ++ ", i32* " ++ gname) st
      | none => st
    genLenStores rest callee (i + 1) st

/-- `Codegen._get_array_length`. -/
def getArrayLength (arrNode : Option PNode) (st : GenSt) : ValueRef × GenSt :=
  let name? : Option String :=
    match arrNode with
    | some (.ident nm) => some nm
    | some (.arrayIndex (.ident nm) _) => some nm
    | _ => none
  match name? with
  | none => (⟨LLVM_INT, "0"⟩, st)
  | some nm =>
    match lookupA st.arrLen nm with
    | some v =>
      if pyEndsWith v.ty "*" then
        let (reg, st) := freshDef ("load i32, i32* " ++ v.name) st
        (⟨LLVM_INT, reg⟩, st)
      else (⟨LLVM_INT, v.name⟩, st)
    | none =>
      let fixedGlobal : Option String :=
        match lookupA st.globals nm with
        | some (gty, _) =>
          if pyStartsWith gty "[" ∧ hasSub gty " x " then some (firstDimOf gty)
          else none
        | none => none
      match fixedGlobal with
      | some n => (⟨LLVM_INT, n⟩, st)
      | none =>
        match st.curFnName with
        | some fnName =>
          if nm ∈ st.curFnParams then
            let idx := st.curFnParams.indexOf nm
            let gname := "@.len." ++ fnName ++ ".p" ++ decStr idx
            let st := declareLenGlobal gname st
            let (r, st) := freshDef ("load i32, i32* " ++ gname) st
            (⟨LLVM_INT, r⟩, st)
          else (⟨LLVM_INT, "0"⟩, st)
        | none => (⟨LLVM_INT, "0"⟩, st)

/-- The `Identifier` case of `_gen_expr`: scope chain, then globals, else the
silent default `ValueRef(LLVM_INT, "0")`. -/
def genIdentExpr (nm : String) (sc : GScope) (st : GenSt) : ValueRef × GenSt :=
  match scopeGet sc nm with
  | some v =>
    let (reg, st) := freshDef ("load " ++ v.ty ++ ", " ++ v.ty ++ "* " ++ v.name) st
    (⟨v.ty, reg⟩, st)
  | none =>
    match lookupA st.globals nm with
    | some (llty, g) =>
      let (reg, st) := freshDef ("load " ++ llty ++ ", " ++ llty ++ "* " ++ g) st
      (⟨llty, reg⟩, st)
    | none => (⟨LLVM_INT, "0"⟩, st)

/-- The `BinOper` case of `_gen_expr`, applied to the already-lowered
operands `a` and `b`. -/
def genBinOper (op : String) (a b : ValueRef) (st : GenSt) : ValueRef × GenSt :=
  if a.ty = LLVM_FLOAT ∨ b.ty = LLVM_FLOAT then
    let (a, st) :=
      if a.ty ≠ LLVM_FLOAT then
        let (ca, st) := freshDef ("sitofp " ++ a.ty ++ " " ++ a.name ++ " to double") st
        (⟨LLVM_FLOAT, ca⟩, st)
      else (a, st)
    let (b, st) :=
      if b.ty ≠ LLVM_FLOAT then
        let (cb, st) := freshDef ("sitofp " ++ b.ty ++ " " ++ b.name ++ " to double") st
        (⟨LLVM_FLOAT, cb⟩, st)
      else (b, st)
    let fop : Option String :=
      if op = "+" then some "fadd" else if op = "-" then some "fsub"
      else if op = "*" then some "fmul" else if op = "/" then some "fdiv" else none
    match fop with
    | some f =>
      let (r, st) := freshDef (f ++ " double " ++ a.name ++ ", " ++ b.name) st
      (⟨LLVM_FLOAT, r⟩, st)
    | none =>
      let fcmp : Option String :=
        if op = "==" then some "oeq" else if op = "!=" then some "one"
        else if op = "<" then some "olt" else if op = "<=" then some "ole"
        else if op = ">" then some "ogt" else if op = ">=" then some "oge" else none
      match fcmp with
      | some c =>
        let (r, st) := freshDef ("fcmp " ++ c ++ " double " ++ a.name ++ ", " ++ b.name) st
        (⟨LLVM_BOOL, r⟩, st)
      | none => (⟨LLVM_INT, "0"⟩, st)
  else
    if op = "+" then
      let (r, st) := freshDef ("add " ++ a.ty ++ " " ++ a.name ++ ", " ++ b.name) st
      (⟨a.ty, r⟩, st)
    else if op = "-" then
      let (r, st) := freshDef ("sub " ++ a.ty ++ " " ++ a.name ++ ", " ++ b.name) st
      (⟨a.ty, r⟩, st)
    else if op = "*" then
      let (r, st) := freshDef ("mul " ++ a.ty ++ " " ++ a.name ++ ", " ++ b.name) st
      (⟨a.ty, r⟩, st)
    else if op = "/" then
      let (r, st) := freshDef ("sdiv " ++ a.ty ++ " " ++ a.name ++ ", " ++ b.name) st
      (⟨a.ty, r⟩, st)
    else if op = "%" then
      let (r, st) := freshDef ("srem " ++ a.ty ++ " " ++ a.name ++ ", " ++ b.name) st
      (⟨a.ty, r⟩, st)
    else
      let icmp : Option String :=
        if op = "==" then some "eq" else if op = "!=" then some "ne"
        else if op = "<" then some "slt" else if op = "<=" then some "sle"
        else if op = ">" then some "sgt" else if op = ">=" then some "sge" else none
      match icmp with
      | some c =>
        let (r, st) := freshDef ("icmp " ++ c ++ " " ++ a.ty ++ " " ++ a.name ++ ", " ++
          b.name) st
        (⟨LLVM_BOOL, r⟩, st)
      | none =>
        if op = "&&" ∨ op = "||" then
          let (aa, st) := asI1 a st
          let (bb, st) := asI1 b st
          let opn := if op = "&&" then "and" else "or"
          let (r, st) := freshDef (opn ++ " i1 " ++ aa.name ++ ", " ++ bb.name) st
          (⟨LLVM_BOOL, r⟩, st)
        else (⟨LLVM_INT, "0"⟩, st)

/-! ### Global declarations (`_gen_global_decl`)

Python coerces a scalar global's `Literal` initializer with `int()`, `bool()`,
`ord()` or `float()` according to the *declared* LLVM type.  The model mirrors
the reachable combinations; combinations on which Python itself would raise
(e.g. `ord()` of an integer) are modelled as the default `"0"` and are
unreachable from parsed programs. -/

def isLiteralNode : PNode → Bool
  | .intLit _ | .floatLit _ | .boolLit _ | .charLit _ | .strLit _ => true
  | _ => false

/-- Integer part of a printed float (Python `int()` truncates toward zero). -/
def floatReprTrunc (s : String) : Int :=
  match s.data with
  | '-' :: r => -(decVal (r.takeWhile (fun c => c ≠ '.')) : Int)
  | cs => (decVal (cs.takeWhile (fun c => c ≠ '.')) : Int)

def litToInt : PNode → Int
  | .intLit v => v
  | .boolLit b => if b then 1 else 0
  | .floatLit s => floatReprTrunc s
  | _ => 0

def litToBool : PNode → Bool
  | .intLit v => v ≠ 0
  | .boolLit b => b
  | .floatLit s => ¬ (s = "0.0" ∨ s = "-0.0")
  | .charLit _ => true
  | .strLit s => s ≠ ""
  | _ => false

def litToOrd : PNode → Nat
  | .charLit c => c.toNat
  | _ => 0

def litToFloatRepr : PNode → String
  | .floatLit s => s
  | .intLit v => intStr v ++ ".0"
  | .boolLit b => if b then "1.0" else "0.0"
  | _ => "0.0"

/-- `Codegen._gen_global_decl`.  `init_values = getattr(d.init, "values",
None)`: no `model.py` node class has a `values` attribute, so it is always
`None` and fixed-size global arrays always get `zeroinitializer`. -/
def genGlobalDecl (name : String) (ty : Option PNode) (init : Option PNode)
    (st : GenSt) : GenSt :=
  match ty with
  | some (.arrayType abase asize) =>
    let baseLL := typeToLLVM abase
    match asize with
    | some (.intLit v) =>
      let gname := "@" ++ name
      let st := { st with
        globals := (name, ("[" ++ intStr v ++ " x " ++ baseLL ++ "]", gname)) :: st.globals }
      let st := emitLn (gname ++ " = global [" ++ intStr v ++ " x " ++ baseLL ++
        "] zeroinitializer") st
      { st with arrLen := (name, ⟨LLVM_INT, intStr v⟩) :: st.arrLen }
    | _ =>
      let gname := "@" ++ name
      let st := { st with globals := (name, (baseLL ++ "*", gname)) :: st.globals }
      emitLn (gname ++ " = global " ++ baseLL ++ "* null") st
  | _ =>
    let llty := typeToLLVM ty
    let gname := "@" ++ name
    let st := { st with globals := (name, (llty, gname)) :: st.globals }
    let initS : String :=
      match init with
      | some l =>
        if isLiteralNode l then
          if llty = LLVM_INT then intStr (litToInt l)
          else if llty = LLVM_BOOL then (if litToBool l then "1" else "0")
          else if llty = LLVM_CHAR then decStr (litToOrd l)
          else if llty = LLVM_FLOAT then litToFloatRepr l
          else "0"
        else "0"
      | none => "0"
    emitLn (gname ++ " = global " ++ llty ++ " " ++ initS) st

/-! ### The recursive generator (`_gen_expr`, `_gen_block`, control flow,
`_gen_function`) -/

/-- `n.then if isinstance(n.then, Block) else Block(stmts=[n.then])`, as the
statement list that `_gen_block` then iterates.  (A `None` statement inside
the synthesized block would fall to `_gen_expr(None)`, a no-op, hence `[]`.) -/
def blockStmtsOf : Option PNode → List PNode
  | some (.block ss) => ss
  | some s => [s]
  | none => []

/-- The parameter loop of `_gen_function`: copy every parameter into a fresh
local slot. -/
def genParamAllocas : List PNode → GScope → GenSt → (GScope × GenSt)
  | [], sc, st => (sc, st)
  | p :: rest, sc, st =>
    match p with
    | .param pname pty =>
      let pLL := paramTypeToLLVM pty
      let (slot, st) := freshDef ("alloca " ++ pLL) st
      let st := emitLn ("  store " ++ pLL ++ " %" ++ pname ++ ", " ++ pLL ++ "* " ++
        slot) st
      genParamAllocas rest (scopeSet sc pname ⟨pLL, slot⟩) st
    | _ => genParamAllocas rest sc st

mutual

/-- `Codegen._gen_expr`. -/
def genExpr : Nat → PNode → GScope → GenSt → (ValueRef × GenSt)
  | 0, _, _, st => (⟨LLVM_INT, "0"⟩, st)
  | fuel + 1, e, sc, st =>
    match e with
    | .intLit v => (⟨LLVM_INT, intStr v⟩, st)
    | .boolLit b => (⟨LLVM_BOOL, if b then "1" else "0"⟩, st)
    | .charLit c => (⟨LLVM_CHAR, decStr c.toNat⟩, st)
    | .floatLit fs => (⟨LLVM_FLOAT, fs⟩, st)
    | .strLit s =>
      let (gname, st) := stringGlobal s st
      let n := s.data.length
      let (ptr, st) := freshDef ("getelementptr inbounds [" ++ decStr (n + 1) ++
        " x i8], [" ++ decStr (n + 1) ++ " x i8]* " ++ gname ++ ", i32 0, i32 0") st
      (⟨LLVM_STRING, ptr⟩, st)
    | .ident nm => genIdentExpr nm sc st
    | .assign target value =>
      match target with
      | .ident tn =>
        match scopeGet sc tn with
        | none =>
          match lookupA st.globals tn with
          | some (llty, g) =>
            let (val, st) := genExpr fuel value sc st
            (val, emitLn ("  store " ++ llty ++ " " ++ val.name ++ ", " ++ llty ++
              "* " ++ g) st)
          | none => genExpr fuel value sc st
        | some slot =>
          let (val, st) := genExpr fuel value sc st
          (val, emitLn ("  store " ++ slot.ty ++ " " ++ val.name ++ ", " ++ slot.ty ++
            "* " ++ slot.name) st)
      | .arrayIndex tArr tIdx =>
        let (basePtr, elemTy, st) := genArrayPtr tArr sc st
        let (idx, st) := genExpr fuel tIdx sc st
        let (gep, st) := freshDef ("getelementptr inbounds " ++ elemTy ++ ", " ++
          elemTy ++ "* " ++ basePtr ++ ", i32 " ++ idx.name) st
        let (val, st) := genExpr fuel value sc st
        let (castv, st) :=
          if val.ty ≠ elemTy then
            if val.ty = LLVM_BOOL ∨ val.ty = LLVM_CHAR then
              let (tmp, st) := freshDef ("zext " ++ val.ty ++ " " ++ val.name ++
                " to i32") st
              (tmp, st)
            else if val.ty = LLVM_FLOAT ∧ elemTy = LLVM_INT then
              let (tmp, st) := freshDef ("fptosi double " ++ val.name ++ " to i32") st
              (tmp, st)
            else (val.name, st)
          else (val.name, st)
        let st := emitLn ("  store " ++ elemTy ++ " " ++ castv ++ ", " ++ elemTy ++
          "* " ++ gep) st
        (⟨elemTy, castv⟩, st)
      | _ => genExpr fuel value sc st
    | .arrayIndex arr idx =>
      let (basePtr, elemTy, st) := genArrayPtr arr sc st
      let (iv, st) := genExpr fuel idx sc st
      let (gep, st) := freshDef ("getelementptr inbounds " ++ elemTy ++ ", " ++
        elemTy ++ "* " ++ basePtr ++ ", i32 " ++ iv.name) st
      let (reg, st) := freshDef ("load " ++ elemTy ++ ", " ++ elemTy ++ "* " ++ gep) st
      (⟨elemTy, reg⟩, st)
    | .call f args =>
      match f with
      | .ident "print" => (⟨LLVM_INT, "0"⟩, genPrintArgs fuel args sc st)
      | .ident "array_length" => getArrayLength args.head? st
      | _ =>
        let callee :=
          match f with
          | .ident nm => nm
          | _ => "unknown"
        let (argvals, st) := genExprList fuel args sc st
        let st := genLenStores args callee 0 st
        let arglist := joinSep ", " (argvals.map (fun v => v.ty ++ " " ++ v.name))
        let (retLL, _) := (lookupA st.fnSigs callee).getD (LLVM_INT, [])
        if retLL = "void" then
          (⟨LLVM_INT, "0"⟩, emitLn ("  call void @" ++ callee ++ "(" ++ arglist ++ ")") st)
        else
          let (r, st) := freshDef ("call " ++ retLL ++ " @" ++ callee ++ "(" ++
            arglist ++ ")") st
          (⟨retLL, r⟩, st)
    | .unaryOper op ue =>
      let (v, st) := genExpr fuel ue sc st
      if op = "-" then
        if v.ty = LLVM_FLOAT then
          let (r, st) := freshDef ("fsub double 0.0, " ++ v.name) st
          (⟨v.ty, r⟩, st)
        else
          let (r, st) := freshDef ("sub " ++ v.ty ++ " 0, " ++ v.name) st
          (⟨v.ty, r⟩, st)
      else if op = "+" then (v, st)
      else if op = "!" then
        let (as1, st) := asI1 v st
        let (r, st) := freshDef ("xor i1 " ++ as1.name ++ ", true") st
        (⟨LLVM_BOOL, r⟩, st)
      else (⟨LLVM_INT, "0"⟩, st)
    | .postfixOper op pe =>
      match pe with
      | .ident nm =>
        match scopeGet sc nm with
        | none =>
          let (llty, g) := (lookupA st.globals nm).getD (LLVM_INT, "None")
          let (cur, st) := freshDef ("load " ++ llty ++ ", " ++ llty ++ "* " ++ g) st
          let opn := if op = "++" then "add" else "sub"
          let (nxt, st) := freshDef (opn ++ " " ++ llty ++ " " ++ cur ++ ", 1") st
          let st := emitLn ("  store " ++ llty ++ " " ++ nxt ++ ", " ++ llty ++ "* " ++ g) st
          (⟨llty, cur⟩, st)
        | some slot =>
          let (cur, st) := freshDef ("load " ++ slot.ty ++ ", " ++ slot.ty ++ "* " ++
            slot.name) st
          let opn := if op = "++" then "add" else "sub"
          let (nxt, st) := freshDef (opn ++ " " ++ slot.ty ++ " " ++ cur ++ ", 1") st
          let st := emitLn ("  store " ++ slot.ty ++ " " ++ nxt ++ ", " ++ slot.ty ++
            "* " ++ slot.name) st
          (⟨slot.ty, cur⟩, st)
      | _ => (⟨LLVM_INT, "0"⟩, st)
    | .binOper op l r =>
      let (a, st) := genExpr fuel l sc st
      let (b, st) := genExpr fuel r sc st
      genBinOper op a b st
    | _ => (⟨LLVM_INT, "0"⟩, st)
  termination_by structural fuel _ _ _ => fuel

/-- `_gen_expr(x)` where `x` may be `None` (Python then matches no
`isinstance` and returns the default). -/
def genExprOpt : Nat → Option PNode → GScope → GenSt → (ValueRef × GenSt)
  | 0, _, _, st => (⟨LLVM_INT, "0"⟩, st)
  | _ + 1, none, _, st => (⟨LLVM_INT, "0"⟩, st)
  | fuel + 1, some e, sc, st => genExpr fuel e sc st

/-- `argvals = [self._gen_expr(a, scope) for a in e.args]` (left to right). -/
def genExprList : Nat → List PNode → GScope → GenSt → (List ValueRef × GenSt)
  | 0, _, _, st => ([], st)
  | fuel + 1, args, sc, st =>
    match args with
    | [] => ([], st)
    | a :: rest =>
      let (v, st) := genExpr fuel a sc st
      let (vs, st) := genExprList fuel rest sc st
      (v :: vs, st)
  termination_by structural fuel _ _ _ => fuel

/-- The `PrintStmt` loop of `_gen_block` (also the `print(...)` intrinsic in
`_gen_expr`): lower each argument, then print it. -/
def genPrintArgs : Nat → List PNode → GScope → GenSt → GenSt
  | 0, _, _, st => st
  | fuel + 1, args, sc, st =>
    match args with
    | [] => st
    | a :: rest =>
      let (v, st) := genExpr fuel a sc st
      genPrintArgs fuel rest sc (genPrint v st)
  termination_by structural fuel _ _ _ => fuel

/-- `Codegen._gen_block`: dispatch every statement; a `ReturnStmt` emits and
then stops generation for the rest of the block (`return` in the Python
loop). -/
def genStmts : Nat → List PNode → GScope → GenSt → (GScope × GenSt)
  | 0, _, sc, st => (sc, st)
  | fuel + 1, ss, sc, st =>
    match ss with
    | [] => (sc, st)
    | s :: rest =>
      match s with
      | .varDecl _ (some (.funcType _ _)) _ =>
        genStmts fuel rest sc (genExpr fuel s sc st).2
      | .varDecl _ _ _ =>
        let (sc, st) := genLocalVardecl fuel s sc st
        genStmts fuel rest sc st
      | .printStmt args =>
        genStmts fuel rest sc (genPrintArgs fuel args sc st)
      | .returnStmt e =>
        match e with
        | none =>
          (sc, emitLn ("  br label %" ++ optPyStr st.currentFnEndLabel) st)
        | some ex =>
          let (v, st) := genExpr fuel ex sc st
          (sc, emitLn ("  ret " ++ v.ty ++ " " ++ v.name) st)
      | .ifStmt _ _ _ => genStmts fuel rest sc (genIf fuel s sc st)
      | .whileStmt _ _ => genStmts fuel rest sc (genWhile fuel s sc st)
      | .doWhileStmt _ _ => genStmts fuel rest sc (genDoWhile fuel s sc st)
      | .forStmt _ _ _ _ => genStmts fuel rest sc (genFor fuel s sc st)
      | .block bstmts =>
        let (_, st) := genStmts fuel bstmts ([] :: sc) st
        genStmts fuel rest sc st
      | _ => genStmts fuel rest sc (genExpr fuel s sc st).2
  termination_by structural fuel _ _ _ => fuel

/-- `Codegen._gen_local_vardecl`.  In the dynamic-array case,
`init_values = getattr(d.init, "values", None)` is always `None` (no model
node has a `values` attribute), so the element-initialization loop never
runs. -/
def genLocalVardecl : Nat → PNode → GScope → GenSt → (GScope × GenSt)
  | 0, _, sc, st => (sc, st)
  | fuel + 1, d, sc, st =>
    match d with
    | .varDecl name ty init =>
      match ty with
      | some (.arrayType abase asize) =>
        let baseLL := typeToLLVM abase
        let elemSz := getSize abase
        match asize with
        | some (.intLit v) =>
          let (slotArr, st) := freshDef ("alloca [" ++ intStr v ++ " x " ++ baseLL ++
            "]") st
          let sc := scopeSet sc name ⟨"[" ++ intStr v ++ " x " ++ baseLL ++ "]", slotArr⟩
          (sc, { st with arrLen := (name, ⟨LLVM_INT, intStr v⟩) :: st.arrLen })
        | some szExpr =>
          let (slotPtr, st) := freshDef ("alloca " ++ baseLL ++ "*") st
          let (nval, st) := genExpr fuel szExpr sc st
          let (nval, st) :=
            if nval.ty ≠ LLVM_INT then
              if nval.ty = LLVM_BOOL ∨ nval.ty = LLVM_CHAR then
                let (fix, st) := freshDef ("zext " ++ nval.ty ++ " " ++ nval.name ++
                  " to i32") st
                (ValueRef.mk LLVM_INT fix, st)
              else if nval.ty = LLVM_FLOAT then
                let (fix, st) := freshDef ("fptosi double " ++ nval.name ++ " to i32") st
                (ValueRef.mk LLVM_INT fix, st)
              else
                let (fix, st) := freshDef "add i32 0, 0" st
                (ValueRef.mk LLVM_INT fix, st)
            else (nval, st)
          let nReg := nval.name
          let (bytesCnt, st) := freshDef ("mul i32 " ++ nReg ++ ", " ++ decStr elemSz) st
          let (raw, st) := freshDef ("call i8* @malloc(i32 " ++ bytesCnt ++ ")") st
          let (cast, st) := freshDef ("bitcast i8* " ++ raw ++ " to " ++ baseLL ++ "*") st
          let st := emitLn ("  store " ++ baseLL ++ "* " ++ cast ++ ", " ++ baseLL ++
            "** " ++ slotPtr) st
          let (lenSlot, st) := freshDef "alloca i32" st
          let st := emitLn ("  store i32 " ++ nReg ++ ", i32* " ++ lenSlot) st
          let st := { st with arrLen := (name, ⟨LLVM_INT ++ "*", lenSlot⟩) :: st.arrLen }
          let sc := scopeSet sc name ⟨baseLL ++ "*", slotPtr⟩
          (sc, st)
        | none =>
          -- size `None`: `n_reg` and `bytes_cnt` stay `"0"`, so neither the
          -- malloc block nor the scope entry is produced; only the dangling
          -- pointer slot was allocated.
          let (_, st) := freshDef ("alloca " ++ baseLL ++ "*") st
          (sc, st)
      | _ =>
        let llty := typeToLLVM ty
        let (slot, st) := freshDef ("alloca " ++ llty) st
        let sc := scopeSet sc name ⟨llty, slot⟩
        match init with
        | some ie =>
          let (v, st) := genExpr fuel ie sc st
          let (v, st) :=
            if v.ty ≠ llty then
              if (v.ty = LLVM_BOOL ∨ v.ty = LLVM_CHAR) ∧ llty = LLVM_INT then
                let (c, st) := freshDef ("zext " ++ v.ty ++ " " ++ v.name ++ " to i32") st
                (ValueRef.mk llty c, st)
              else if v.ty = LLVM_FLOAT ∧ llty = LLVM_INT then
                let (c, st) := freshDef ("fptosi double " ++ v.name ++ " to i32") st
                (ValueRef.mk llty c, st)
              else (ValueRef.mk llty v.name, st)
            else (v, st)
          (sc, emitLn ("  store " ++ llty ++ " " ++ v.name ++ ", " ++ llty ++ "* " ++
            slot) st)
        | none =>
          (sc, emitLn ("  store " ++ llty ++ " 0, " ++ llty ++ "* " ++ slot) st)
    | _ => (sc, st)

/-- `Codegen._gen_if`. -/
def genIf : Nat → PNode → GScope → GenSt → GenSt
  | 0, _, _, st => st
  | fuel + 1, n, sc, st =>
    match n with
    | .ifStmt cond thenS otherwise =>
      let (cv, st) := genExprOpt fuel cond sc st
      let (cond1, st) := asI1 cv st
      let (thenL, st) := genLabel "then." st
      let (elseL, st) := genLabel "else." st
      let (endL, st) := genLabel "endif." st
      let st := emitLn ("  br i1 " ++ cond1.name ++ ", label %" ++ thenL ++
        ", label %" ++ elseL) st
      let st := emitLn (thenL ++ ":") st
      let st := (genStmts fuel (blockStmtsOf thenS) ([] :: sc) st).2
      let st := emitLn ("  br label %" ++ endL) st
      let st := emitLn (elseL ++ ":") st
      let st :=
        match otherwise with
        | some o => (genStmts fuel (blockStmtsOf (some o)) ([] :: sc) st).2
        | none => st
      let st := emitLn ("  br label %" ++ endL) st
      emitLn (endL ++ ":") st
    | _ => st
  termination_by structural fuel _ _ _ => fuel

/-- `Codegen._gen_while`. -/
def genWhile : Nat → PNode → GScope → GenSt → GenSt
  | 0, _, _, st => st
  | fuel + 1, n, sc, st =>
    match n with
    | .whileStmt cond body =>
      let (headL, st) := genLabel "while.head." st
      let (bodyL, st) := genLabel "while.body." st
      let (endL, st) := genLabel "while.end." st
      let st := emitLn ("  br label %" ++ headL) st
      let st := emitLn (headL ++ ":") st
      let (cv, st) := genExprOpt fuel cond sc st
      let (c1, st) := asI1 cv st
      let st := emitLn ("  br i1 " ++ c1.name ++ ", label %" ++ bodyL ++ ", label %" ++
        endL) st
      let st := emitLn (bodyL ++ ":") st
      let st := (genStmts fuel (blockStmtsOf body) ([] :: sc) st).2
      let st := emitLn ("  br label %" ++ headL) st
      emitLn (endL ++ ":") st
    | _ => st
  termination_by structural fuel _ _ _ => fuel

/-- `Codegen._gen_dowhile`. -/
def genDoWhile : Nat → PNode → GScope → GenSt → GenSt
  | 0, _, _, st => st
  | fuel + 1, n, sc, st =>
    match n with
    | .doWhileStmt body cond =>
      let (bodyL, st) := genLabel "do.body." st
      let (headL, st) := genLabel "do.head." st
      let (endL, st) := genLabel "do.end." st
      let st := emitLn ("  br label %" ++ bodyL) st
      let st := emitLn (bodyL ++ ":") st
      let st := (genStmts fuel (blockStmtsOf body) ([] :: sc) st).2
      let st := emitLn ("  br label %" ++ headL) st
      let st := emitLn (headL ++ ":") st
      let (cv, st) := genExprOpt fuel cond sc st
      let (c1, st) := asI1 cv st
      let st := emitLn ("  br i1 " ++ c1.name ++ ", label %" ++ bodyL ++ ", label %" ++
        endL) st
      emitLn (endL ++ ":") st
    | _ => st
  termination_by structural fuel _ _ _ => fuel

/-- `Codegen._gen_for`. -/
def genFor : Nat → PNode → GScope → GenSt → GenSt
  | 0, _, _, st => st
  | fuel + 1, n, sc, st =>
    match n with
    | .forStmt finit cond step body =>
      let initScope : GScope := [] :: sc
      let st :=
        match finit with
        | some ie => (genExpr fuel ie initScope st).2
        | none => st
      let (headL, st) := genLabel "for.head." st
      let (bodyL, st) := genLabel "for.body." st
      let (stepL, st) := genLabel "for.step." st
      let (endL, st) := genLabel "for.end." st
      let st := emitLn ("  br label %" ++ headL) st
      let st := emitLn (headL ++ ":") st
      let (c1, st) :=
        match cond with
        | some ce =>
          let (cv, st) := genExpr fuel ce initScope st
          asI1 cv st
        | none => (ValueRef.mk LLVM_BOOL "true", st)
      let st := emitLn ("  br i1 " ++ c1.name ++ ", label %" ++ bodyL ++ ", label %" ++
        endL) st
      let st := emitLn (bodyL ++ ":") st
      let st := (genStmts fuel (blockStmtsOf body) ([] :: initScope) st).2
      let st := emitLn ("  br label %" ++ stepL) st
      let st := emitLn (stepL ++ ":") st
      let st :=
        match step with
        | some se => (genExpr fuel se initScope st).2
        | none => st
      let st := emitLn ("  br label %" ++ headL) st
      emitLn (endL ++ ":") st
    | _ => st
  termination_by structural fuel _ _ _ => fuel

/-- `Codegen._gen_function`. -/
def genFunction : Nat → PNode → GenSt → GenSt
  | 0, _, st => st
  | fuel + 1, fdecl, st =>
    match fdecl with
    | .varDecl name (some (.funcType fret fparams)) finit =>
      let retLL :=
        match fret with
        | none => "void"
        | some r => typeToLLVM (some r)
      let st := { st with
        fnRetTy := some retLL,
        currentFnName := some name,
        curFnName := some name,
        curFnParams := fparams.map (fun p =>
          match p with
          | .param pname _ => pname
          | _ => "") }
      let paramsSig := joinSep ", " (fparams.map (fun p =>
        match p with
        | .param pname pty => paramTypeToLLVM pty ++ " %" ++ pname
        | _ => ""))
      let st := emitLn ("define " ++ retLL ++ " @" ++ name ++ "(" ++ paramsSig ++
        ") \x7b") st
      let fnScope : GScope := [[]]
      let (fnScope, st) := genParamAllocas fparams fnScope st
      let (endL, st) := genLabel "endfn." st
      let st := { st with currentFnEndLabel := some endL }
      let st :=
        match finit with
        | some (.block bstmts) => (genStmts fuel bstmts fnScope st).2
        | _ => st
      let st := emitLn (endL ++ ":") st
      let st :=
        if retLL = "void" then emitLn "  ret void" st
        else emitLn ("  ret " ++ retLL ++ " 0") st
      let st := emitLn "\x7d\n" st
      { st with
        fnRetTy := none, currentFnEndLabel := none, currentFnName := none,
        curFnName := none, curFnParams := [] }
    | _ => st

end

/-- `Codegen.gen_program`: header, pre-collected signatures, globals, then
one function definition per source function. -/
def genProgram (fuel : Nat) (prog : PNode) : GenSt :=
  let st := irHeader genSt0
  match prog with
  | .program body =>
    let st := body.foldl (fun st s =>
      match s with
      | .varDecl nm (some (.funcType fret fparams)) _ =>
        let retLL :=
          match fret with
          | none => "void"
          | some r => typeToLLVM (some r)
        let paramsLL := fparams.map (fun p =>
          match p with
          | .param _ pty => paramTypeToLLVM pty
          | _ => paramTypeToLLVM none)
        { st with fnSigs := (nm, (retLL, paramsLL)) :: st.fnSigs }
      | _ => st) st
    let st := body.foldl (fun st s =>
      match s with
      | .varDecl _ (some (.funcType _ _)) _ => st
      | .varDecl nm ty init => genGlobalDecl nm ty init st
      | _ => st) st
    body.foldl (fun st s =>
      match s with
      | .varDecl _ (some (.funcType _ _)) _ => genFunction fuel s st
      | _ => st) st
  | _ => st

/-- The module-level driver of `bminor2llvm.py` (lines 947-964): parse the
source, then *unconditionally* run `Codegen.gen_program` and print
`em.finalize()`.  The checker is never invoked: `check = getattr(checker_mod,
"check", None)` is `None` because `checker.py` defines no `check` function,
and in any case that value only gates writing a copy of the output to
`out.ll`, never the generation itself. -/
def bminorDriver (fuel : Nat) (prog : PNode) : String :=
  irFinalize (genProgram fuel prog)

/-! ## Analysis of the emitted module text

`definedReg` recognizes the register an instruction line defines: every line
the generator emits that begins (after indentation) with `%` is of the form
`[indent]%r = <rhs>` (register definitions inside a function body are
indented; `gep_cstr` emits its definition at column 0).  Labels, branches,
stores, `ret`, globals (`@...`), `define`/`declare` lines and blank lines
never begin with `%`. -/

def isSpaceC (c : Char) : Bool := c == ' '

def dropSpaces : List Char → List Char
  | [] => []
  | c :: cs => if isSpaceC c then dropSpaces cs else c :: cs

def takeNonSpace : List Char → List Char
  | [] => []
  | c :: cs => if isSpaceC c then [] else c :: takeNonSpace cs

def definedReg (ln : String) : Option String :=
  match dropSpaces ln.data with
  | '%' :: rest => some (String.mk (takeNonSpace ('%' :: rest)))
  | _ => none

/-- All register names defined by instructions of the module, in order. -/
def defsOf (lines : List String) : List String := lines.filterMap definedReg

/-- A terminator instruction line (`br` or `ret`). -/
def isTerminator (ln : String) : Bool :=
  pyStartsWith ln "  br " || pyStartsWith ln "  ret "

/-- A label line: unindented, ending in `:`. -/
def isLabelLine (ln : String) : Bool :=
  ¬ pyStartsWith ln " " ∧ pyEndsWith ln ":" ∧ ¬ pyStartsWith ln "define"

/-- The body lines of each emitted function (between its `define ... {` line
and its closing `}`). -/
def funcRegionsAux : List String → Option (List String) → List (List String)
  | [], none => []
  | [], some cur => [cur.reverse]
  | ln :: rest, none =>
    if pyStartsWith ln "define" then funcRegionsAux rest (some [])
    else funcRegionsAux rest none
  | ln :: rest, some cur =>
    if ln = "\x7d\n" then cur.reverse :: funcRegionsAux rest none
    else funcRegionsAux rest (some (ln :: cur))

def funcRegions (lines : List String) : List (List String) :=
  funcRegionsAux lines none

/-- Split one function region into basic blocks: `(label, instructions)`,
the entry block carrying the label `""`. -/
def blocksOfAux : List String → String → List String → List (String × List String)
  | [], lbl, cur => [(lbl, cur.reverse)]
  | ln :: rest, lbl, cur =>
    if isLabelLine ln then
      (lbl, cur.reverse) :: blocksOfAux rest (String.mk ln.data.dropLast) []
    else blocksOfAux rest lbl (ln :: cur)

def blocksOf (region : List String) : List (String × List String) :=
  blocksOfAux region "" []

/-- Number of terminator instructions in a block. -/
def termCount (instrs : List String) : Nat := (instrs.filter isTerminator).length

/-- Is the block's last instruction a terminator? -/
def lastIsTerm (instrs : List String) : Bool :=
  match instrs.getLast? with
  | some l => isTerminator l
  | none => false

/-- Number of `ret` instructions in a list of lines. -/
def retCount (lines : List String) : Nat :=
  (lines.filter (fun ln => pyStartsWith ln "  ret ")).length

/-! ## Further concrete programs -/

/-- `g: function void() = { return; };  f: function integer() = { return 1; };` -/
def progFG : PNode := .program
  [ .varDecl "g" (some (.funcType (some (.simpleType "void")) []))
      (some (.block [.returnStmt none])),
    .varDecl "f" (some (.funcType (some (.simpleType "integer")) []))
      (some (.block [.returnStmt (some (.intLit 1))])) ]

/-- `main: function integer() = { return zzz; };` — `zzz` is declared
nowhere. -/
def progUndef : PNode := .program
  [ .varDecl "main" (some (.funcType (some (.simpleType "integer")) []))
      (some (.block [.returnStmt (some (.ident "zzz"))])) ]

/-- `main: function void() = { x: integer; x = 2.5; };` — a float value
assigned into an integer slot. -/
def progAssignFloat : PNode := .program
  [ .varDecl "main" (some (.funcType (some (.simpleType "void")) []))
      (some (.block
        [ .varDecl "x" (some (.simpleType "integer")) none,
          .assign (.ident "x") (.floatLit "2.5") ])) ]

/-- `main: function void() = { x: integer = 2.5; a: array[2] integer;
a[0] = 1.5; };` — float-to-integer stores at a declaration initializer and
at an array-element assignment. -/
def progFloatStores : PNode := .program
  [ .varDecl "main" (some (.funcType (some (.simpleType "void")) []))
      (some (.block
        [ .varDecl "x" (some (.simpleType "integer")) (some (.floatLit "2.5")),
          .varDecl "a" (some (.arrayType (some (.simpleType "integer"))
            (some (.intLit 2)))) none,
          .assign (.arrayIndex (.ident "a") (.intLit 0)) (.floatLit "1.5") ])) ]

/-- Spelled-out float arithmetic mnemonic for the amended C8 statement. -/
def fopName (op : String) : String :=
  if op = "+" then "fadd" else if op = "-" then "fsub"
  else if op = "*" then "fmul" else "fdiv"

/-- A small checker state for witnesses: `x: integer;` has been declared in
the global scope and is flagged uninitialized. -/
def stC9 : CheckSt :=
  { msgs := [], hadErrors := false, funRetStack := [], funNameStack := [],
    sawReturnStack := [], loopDepth := 0, lhsMode := false,
    frames := [⟨none, [("x", .varDecl "x" (some (.simpleType "integer")) none)]⟩],
    inits := [(0, [("x", false)])] }

/-! ## C7: module-wide uniqueness of instruction-defined registers

`InvL lines cnt` says: every register defined by an instruction of `lines`
is an allocator name `%t<k>` with `1 ≤ k ≤ cnt`, and no two instruction
lines define the same register.  Every emission primitive of the generator
preserves it, hence so does the whole of `gen_program`. -/

def InvL (lines : List String) (cnt : Nat) : Prop :=
  (∀ r ∈ defsOf lines, ∃ k, 1 ≤ k ∧ k ≤ cnt ∧ r = tname k) ∧ (defsOf lines).Nodup

/-- Does this line start (after spaces) with a character other than `%`? -/
def goodPrefix (pre : String) : Bool :=
  match dropSpaces pre.data with
  | c :: _ => c != '%'
  | [] => false

/-- The register invariant stated on a generator state. -/
def GInv (st : GenSt) : Prop := InvL st.lines st.tmpCounter

theorem decVal_append_singleton (ds : List Char) (c : Char) :
    decVal (ds ++ [c]) = 10 * decVal ds + (c.toNat - 48) := by
  simp [decVal, List.foldl_append, Nat.mul_comm]

theorem digitChar_val (d : Nat) (hd : d < 10) : (Nat.digitChar d).toNat - 48 = d := by
  interval_cases d <;> rfl

theorem decVal_decAux : ∀ (fuel v : Nat), v ≤ fuel → decVal (decAux fuel v) = v := by
  intro fuel
  induction fuel with
  | zero => intro v hv; interval_cases v; rfl
  | succ f ih =>
    intro v hv
    by_cases h0 : v = 0
    · subst h0; simp [decAux, decVal]
    · have hdiv : v / 10 ≤ f := by
        have : v / 10 < v := Nat.div_lt_self (Nat.pos_of_ne_zero h0) (by norm_num)
        omega
      have hmod : v % 10 < 10 := Nat.mod_lt _ (by norm_num)
      calc decVal (decAux (f + 1) v)
          = decVal (decAux f (v / 10) ++ [Nat.digitChar (v % 10)]) := by
            simp [decAux, h0]
        _ = 10 * decVal (decAux f (v / 10)) + ((Nat.digitChar (v % 10)).toNat - 48) :=
            decVal_append_singleton _ _
        _ = 10 * (v / 10) + v % 10 := by rw [ih _ hdiv, digitChar_val _ hmod]
        _ = v := by omega

theorem decStr_injective : Function.Injective decStr := by
  intro n m h
  by_cases hn : n = 0 <;> by_cases hm : m = 0
  · omega
  · exfalso
    have hd : decAux m m = ['0'] := by
      have h2 := congrArg String.data h
      simp [decStr, hn, hm] at h2
      exact h2.symm
    have hv : decVal (decAux m m) = m := decVal_decAux m m le_rfl
    rw [hd] at hv
    simp [decVal] at hv
    omega
  · exfalso
    have hd : decAux n n = ['0'] := by
      have h2 := congrArg String.data h
      simp [decStr, hn, hm] at h2
      exact h2
    have hv : decVal (decAux n n) = n := decVal_decAux n n le_rfl
    rw [hd] at hv
    simp [decVal] at hv
    omega
  · have hdata : decAux n n = decAux m m := by
      have h2 := congrArg String.data h
      simp [decStr, hn, hm] at h2
      exact h2
    have h1 : decVal (decAux n n) = n := decVal_decAux n n le_rfl
    have h2 : decVal (decAux m m) = m := decVal_decAux m m le_rfl
    rw [hdata, h2] at h1
    omega

theorem decAux_digit : ∀ (fuel v : Nat) (c : Char), c ∈ decAux fuel v →
    48 ≤ c.toNat ∧ c.toNat ≤ 57 := by
  intro fuel
  induction fuel with
  | zero => intro v c hc; simp [decAux] at hc
  | succ f ih =>
    intro v c hc
    by_cases h0 : v = 0
    · simp [decAux, h0] at hc
    · simp only [decAux, h0, if_false, List.mem_append, List.mem_singleton] at hc
      rcases hc with hc | hc
      · exact ih _ _ hc
      · subst hc
        have hmod : v % 10 < 10 := Nat.mod_lt _ (by norm_num)
        interval_cases h : (v % 10) <;> simp_all <;> decide

theorem decStr_no_space (n : Nat) (c : Char) (hc : c ∈ (decStr n).data) : c ≠ ' ' := by
  by_cases hn : n = 0
  · subst hn
    simp [decStr] at hc
    subst hc
    decide
  · simp [decStr, hn] at hc
    have := decAux_digit n n c hc
    intro he
    subst he
    simp at this

/-! ## Claim theorems -/

theorem irFinalize_ne_empty (st : GenSt) : irFinalize st ≠ "" := by
  intro h
  have h2 := congrArg String.data h
  simp [irFinalize] at h2

/-- C2 counterexample: analysing Scenario D,
`f: function integer(a: integer) = { if (a > 0) return 1; };`, yields *no*
diagnostic at all — the return inside the `if` branch sets the seen-return
flag, so no missing-return diagnostic is recorded even though the implicit
else path returns nothing. -/
theorem C2_counterexample : analyze 200 progD = [] := by decide

/-- C2 amended: the checker flags a missing return only when a non-void
function's body contains no value-return statement anywhere (the
seen-value-return flag stays false); one return inside a branch of an `if`
suppresses the diagnostic, so Scenario D produces zero diagnostics while the
same function with an empty body produces exactly the missing-return
diagnostic. -/
theorem C2_amended :
    analyze 200 progD = [] ∧
    analyze 200 progDEmpty =
      ["La función \x27f\x27 no retorna un valor (retorno integer)"] := by
  constructor <;> decide

/-- C3 counterexample: `main: function integer() = { return 1; };` is *not*
diagnostic-free — the checker demands that `main` return void — and the
generated `main` does not consist of a single block: its body has two basic
blocks and two `ret` instructions. -/
theorem C3_counterexample :
    analyze 200 progB = ["Tipo de retorno inválido para \x27main\x27 (debe ser void)"] ∧
    retCount (genProgram 200 progB).lines = 2 ∧
    (funcRegions (genProgram 200 progB).lines).length = 1 ∧
    (blocksOf ((funcRegions (genProgram 200 progB).lines).getD 0 [])).length = 2 := by
  refine ⟨by decide, by decide, by decide, by decide⟩

/-- C3 amended: analysing Scenario B yields exactly the one diagnostic
"return type of `main` must be void"; code generation still produces one
function `main` whose entry block is terminated by `ret i32 1`, followed by
the epilogue block `endfn.1` holding the default `ret i32 0`. -/
theorem C3_amended :
    analyze 200 progB = ["Tipo de retorno inválido para \x27main\x27 (debe ser void)"] ∧
    (genProgram 200 progB).lines =
      [ "declare i32 @printf(i8*, ...)",
        "declare i8* @malloc(i32)",
        "",
        "@.fmt_int   = private unnamed_addr constant [4 x i8] c\"%d\\0A\\00\"",
        "@.fmt_float = private unnamed_addr constant [4 x i8] c\"%f\\0A\\00\"",
        "@.fmt_char  = private unnamed_addr constant [4 x i8] c\"%c\\0A\\00\"",
        "@.fmt_str   = private unnamed_addr constant [4 x i8] c\"%s\\0A\\00\"",
        "",
        "define i32 @main() \x7b",
        "  ret i32 1",
        "endfn.1:",
        "  ret i32 0",
        "\x7d\n" ] ∧
    (blocksOf ((funcRegions (genProgram 200 progB).lines).getD 0 [])).map
      (fun b => (b.1, lastIsTerm b.2)) = [("", true), ("endfn.1", true)] := by
  refine ⟨by decide, by decide, by decide⟩

/-- C4 counterexample: in the generated module for
`g: function void() = { return; }; f: function integer() = { return 1; };`
the function `f` contains two `ret` instructions, and its `return 1` is
emitted inline — no branch to the epilogue label `endfn.2` exists — refuting
"exactly one `ret`, located at the epilogue; every return path branches to
that epilogue". -/
theorem C4_counterexample :
    retCount ((funcRegions (genProgram 200 progFG).lines).getD 1 []) = 2 ∧
    "  ret i32 1" ∈ (funcRegions (genProgram 200 progFG).lines).getD 1 [] ∧
    "  br label %endfn.2" ∉ (funcRegions (genProgram 200 progFG).lines).getD 1 [] := by
  refine ⟨by decide, by decide, by decide⟩

/-- C4 amended: each generated function has exactly one epilogue label,
whose block performs a default `ret` (`ret void`, or `0` for a non-void
function); a value-less `return;` branches to the epilogue, but a
value-carrying `return e;` emits its `ret` inline at the return site, so a
function may contain more than one `ret` instruction. -/
theorem C4_amended :
    funcRegions (genProgram 200 progFG).lines =
      [ [ "  br label %endfn.1", "endfn.1:", "  ret void" ],
        [ "  ret i32 1", "endfn.2:", "  ret i32 0" ] ] ∧
    ((funcRegions (genProgram 200 progFG).lines).map
      (fun r => (r.filter isLabelLine).length)) = [1, 1] ∧
    ((funcRegions (genProgram 200 progFG).lines).map
      (fun r => r.getLast? )) = [some "  ret void", some "  ret i32 0"] := by
  refine ⟨by decide, by decide, by decide⟩

/-- C5 counterexample: lowering Scenario D's `if (a > 0) return 1;` produces
a `then.2` block whose instructions are a `ret` *followed by* a `br` (two
terminators, and the terminator `ret` is not the last instruction), and an
`endif.4` block with no terminator at all — refuting "every basic block
contains exactly one terminator, and that terminator is the block's last
instruction". -/
theorem C5_counterexample :
    (blocksOf ((funcRegions (genProgram 200 progD).lines).getD 0 [])).map
      (fun b => (b.1, termCount b.2)) =
      [("", 1), ("then.2", 2), ("else.3", 1), ("endif.4", 0), ("endfn.1", 1)] ∧
    lookupA (blocksOf ((funcRegions (genProgram 200 progD).lines).getD 0 [])) "then.2" =
      some ["  ret i32 1", "  br label %endif.4"] := by
  refine ⟨by decide, by decide⟩

/-- C5 amended: in the module generated for Scenario D every basic block
*ends* with at most one control transfer, but the block lowered from an
if-branch whose body is a value-return holds the inline `ret` followed by
the unconditional `br` the `if` lowering always appends (two terminators,
`ret` not last), and the `endif` join block has no terminator of its own: it
falls through into the function epilogue.  All remaining blocks have exactly
one terminator, which is their last instruction. -/
theorem C5_amended :
    blocksOf ((funcRegions (genProgram 200 progD).lines).getD 0 []) =
      [ ("", [ "  %t1 = alloca i32", "  store i32 %a, i32* %t1",
               "  %t2 = load i32, i32* %t1", "  %t3 = icmp sgt i32 %t2, 0",
               "  br i1 %t3, label %then.2, label %else.3" ]),
        ("then.2", [ "  ret i32 1", "  br label %endif.4" ]),
        ("else.3", [ "  br label %endif.4" ]),
        ("endif.4", []),
        ("endfn.1", [ "  ret i32 0" ]) ] ∧
    ((blocksOf ((funcRegions (genProgram 200 progD).lines).getD 0 [])).filter
      (fun b => ¬ (b.1 = "then.2" ∨ b.1 = "endif.4"))).all
      (fun b => termCount b.2 = 1 ∧ lastIsTerm b.2) = true := by
  refine ⟨by decide, by decide⟩

/-- C6 counterexample: generating an `Identifier` that resolves in no table
(not in the scope chain, not a global) silently returns the default
`ValueRef("i32", "0")` with the state untouched — no fatal error, no abort —
and a whole program that reads the undeclared `zzz` still generates to
completion, returning the substituted `0`. -/
theorem C6_counterexample :
    genExpr 5 (.ident "zzz") [[]] genSt0 = (⟨"i32", "0"⟩, genSt0) ∧
    (funcRegions (genProgram 200 progUndef).lines).getD 0 [] =
      ["  ret i32 0", "endfn.1:", "  ret i32 0"] ∧
    bminorDriver 200 progUndef ≠ "" := by
  refine ⟨by decide, by decide, irFinalize_ne_empty _⟩

/-- C6 amended: referencing a symbol absent from every table during code
generation is *not* fatal: the `Identifier` case of `_gen_expr` silently
substitutes the integer default `ValueRef("i32", "0")` (emitting nothing),
and the `_gen_array_ptr` fallback silently produces a null-derived `i32`
pointer; generation continues. -/
theorem C6_amended :
    (∀ (fuel : Nat) (nm : String) (sc : GScope) (st : GenSt),
      scopeGet sc nm = none → lookupA st.globals nm = none →
      genExpr (fuel + 1) (.ident nm) sc st = (⟨LLVM_INT, "0"⟩, st)) ∧
    (∀ (sc : GScope) (st : GenSt) (i : Int),
      genArrayPtr (.intLit i) sc st =
        (tname (st.tmpCounter + 1), LLVM_INT,
          emitLn ("  " ++ tname (st.tmpCounter + 1) ++ " = " ++
            "bitcast i8* null to i32*") { st with tmpCounter := st.tmpCounter + 1 })) := by
  constructor
  · intro fuel nm sc st h1 h2
    show genIdentExpr nm sc st = (⟨LLVM_INT, "0"⟩, st)
    simp [genIdentExpr, h1, h2]
  · intro sc st i
    rfl

theorem C6_witness :
    genExpr 6 (.ident "nowhere") [[]] genSt0 = (⟨LLVM_INT, "0"⟩, genSt0) ∧
    genArrayPtr (.intLit 7) [[]] genSt0 =
      (tname 1, LLVM_INT,
        emitLn ("  " ++ tname 1 ++ " = " ++ "bitcast i8* null to i32*")
          { genSt0 with tmpCounter := 1 }) :=
  ⟨C6_amended.1 5 "nowhere" [[]] genSt0 rfl rfl, C6_amended.2 [[]] genSt0 7⟩

/-- C8 counterexample, two parts.  (1) For the arithmetic operator `%` with a
float and an integer operand, the generated code converts the integer operand
(`sitofp`) but then performs *no* operation at all: the `BinOper` lowering's
float branch knows only `+ - * /` and comparisons, so it falls through to the
default `ValueRef("i32", "0")`.  (2) A simple assignment `x = 2.5;` into an
integer slot stores the float value with no conversion whatsoever: the
emitted line is `store i32 2.5, i32* %t1` and no `fptosi` appears in the
module. -/
theorem C8_counterexample :
    genExpr 5 (.binOper "%" (.floatLit "2.5") (.intLit 3)) [[]] genSt0 =
      (⟨"i32", "0"⟩,
        { genSt0 with tmpCounter := 1, lines := ["  %t1 = sitofp i32 3 to double"] }) ∧
    (funcRegions (genProgram 200 progAssignFloat).lines).getD 0 [] =
      [ "  %t1 = alloca i32", "  store i32 0, i32* %t1",
        "  store i32 2.5, i32* %t1", "endfn.1:", "  ret void" ] ∧
    (genProgram 200 progAssignFloat).lines.all
      (fun ln => ¬ hasSub ln "fptosi") = true := by
  refine ⟨by decide, by decide, by decide⟩

/-- C8 amended: for the four arithmetic operators `+ - * /`, mixing an
integer and a float operand (in either order) converts the integer operand
with `sitofp` and performs the operation in `double`; the float-to-integer
truncation (`fptosi`) is emitted when a float value initializes an integer
declaration or is assigned into an integer array element, but a simple
identifier assignment stores the float value unconverted, and `%` (or `^`)
on mixed operands converts and then emits no operation, yielding the default
`i32 0`. -/
theorem C8_amended :
    (∀ (op : String) (a b : ValueRef) (st : GenSt),
      (op = "+" ∨ op = "-" ∨ op = "*" ∨ op = "/") →
      a.ty = LLVM_INT → b.ty = LLVM_FLOAT →
      (genBinOper op a b st).1 = ⟨LLVM_FLOAT, tname (st.tmpCounter + 2)⟩ ∧
      (genBinOper op a b st).2.lines =
        st.lines ++
          [ "  " ++ tname (st.tmpCounter + 1) ++ " = " ++
              ("sitofp " ++ a.ty ++ " " ++ a.name ++ " to double"),
            "  " ++ tname (st.tmpCounter + 2) ++ " = " ++
              (fopName op ++ " double " ++ tname (st.tmpCounter + 1) ++ ", " ++ b.name) ]) ∧
    (∀ (op : String) (a b : ValueRef) (st : GenSt),
      (op = "+" ∨ op = "-" ∨ op = "*" ∨ op = "/") →
      a.ty = LLVM_FLOAT → b.ty = LLVM_INT →
      (genBinOper op a b st).1 = ⟨LLVM_FLOAT, tname (st.tmpCounter + 2)⟩ ∧
      (genBinOper op a b st).2.lines =
        st.lines ++
          [ "  " ++ tname (st.tmpCounter + 1) ++ " = " ++
              ("sitofp " ++ b.ty ++ " " ++ b.name ++ " to double"),
            "  " ++ tname (st.tmpCounter + 2) ++ " = " ++
              (fopName op ++ " double " ++ a.name ++ ", " ++ tname (st.tmpCounter + 1)) ]) ∧
    (funcRegions (genProgram 200 progFloatStores).lines).getD 0 [] =
      [ "  %t1 = alloca i32",
        "  %t2 = fptosi double 2.5 to i32",
        "  store i32 %t2, i32* %t1",
        "  %t3 = alloca [2 x i32]",
        "  %t4 = getelementptr inbounds [2 x i32], [2 x i32]* %t3, i32 0, i32 0",
        "  %t5 = getelementptr inbounds i32, i32* %t4, i32 0",
        "  %t6 = fptosi double 1.5 to i32",
        "  store i32 %t6, i32* %t5", "endfn.1:", "  ret void" ] := by
  refine ⟨?_, ?_, by decide⟩
  · rintro op a b st (rfl | rfl | rfl | rfl) ha hb <;>
      simp [genBinOper, ha, hb, LLVM_INT, LLVM_FLOAT, fopName, freshDef, tmpReg,
        emitLn, tname]
  · rintro op a b st (rfl | rfl | rfl | rfl) ha hb <;>
      simp [genBinOper, ha, hb, LLVM_INT, LLVM_FLOAT, fopName, freshDef, tmpReg,
        emitLn, tname]

theorem C8_witness :
    (genBinOper "+" ⟨"i32", "7"⟩ ⟨"double", "2.5"⟩ genSt0).1 =
      ⟨LLVM_FLOAT, tname 2⟩ ∧
    (genBinOper "+" ⟨"i32", "7"⟩ ⟨"double", "2.5"⟩ genSt0).2.lines =
      [ "  " ++ tname 1 ++ " = " ++ ("sitofp " ++ "i32" ++ " " ++ "7" ++ " to double"),
        "  " ++ tname 2 ++ " = " ++
          (fopName "+" ++ " double " ++ tname 1 ++ ", " ++ "2.5") ] :=
  C8_amended.1 "+" ⟨"i32", "7"⟩ ⟨"double", "2.5"⟩ genSt0 (Or.inl rfl) rfl rfl

/-- C9 (confirmed): the `Identifier` visit — reached through the checker's
dispatch — reports "use before assignment" exactly when the read happens
outside lvalue mode, the name resolves through the scope chain, and its
initialization flag is `False`; Scenario A produces exactly that diagnostic
for `x`, and a declaration initializer or a simple-identifier assignment
sets the flag so the later read is clean. -/
theorem C9_use_before_assignment :
    (∀ (fuel : Nat) (nm : String) (env : Nat) (st : CheckSt),
      chk (fuel + 1) (.ident nm) env st = chkIdent fuel nm env st) ∧
    (∀ (fuel : Nat) (nm : String) (env : Nat) (st : CheckSt),
      st.lhsMode = false → (∃ d, symtabGet env nm st = some d) →
      isInitialized env nm st = some false →
      (chkIdent fuel nm env st).2.msgs =
        st.msgs ++ ["Uso de variable antes de asignación: " ++ nm] ∧
      (chkIdent fuel nm env st).2.hadErrors = true) ∧
    analyze 200 progA = ["Uso de variable antes de asignación: x"] ∧
    analyze 200 progAInit = [] ∧
    analyze 200 progAAssign = [] := by
  refine ⟨?_, ?_, by decide, by decide, by decide⟩
  · intro fuel nm env st
    rfl
  · rintro fuel nm env st hlhs ⟨d, hd⟩ hinit
    simp [chkIdent, hd, hlhs, hinit, errReport]

theorem C9_witness :
    (chkIdent 5 "x" 0 stC9).2.msgs =
      stC9.msgs ++ ["Uso de variable antes de asignación: " ++ "x"] ∧
    (chkIdent 5 "x" 0 stC9).2.hadErrors = true :=
  C9_use_before_assignment.2.1 5 "x" 0 stC9 rfl ⟨_, rfl⟩ rfl

/-- C10 (confirmed): `Check.visit(Assign)` visits the whole target with the
lvalue flag raised — so an uninitialized variable read inside the *index* of
an `a[i] = 0` target triggers no use-before-assignment diagnostic — an
identifier resolved while the flag is raised leaves the state completely
unchanged, and after the target the flag is assigned `False` outright (not
restored): even an assignment visited while the flag was already `True` ends
with the flag `False`. -/
theorem C10_lvalue_mode :
    (∀ (env : Nat) (st : CheckSt),
      (chk 5 (.assign (.intLit 1) (.intLit 2)) env
        { st with lhsMode := true }).2.lhsMode = false) ∧
    (∀ (fuel : Nat) (nm : String) (env : Nat) (st : CheckSt),
      st.lhsMode = true → (∃ d, symtabGet env nm st = some d) →
      (chkIdent fuel nm env st).2 = st) ∧
    analyze 200 progIdx = [] := by
  refine ⟨?_, ?_, by decide⟩
  · intro env st
    rfl
  · rintro fuel nm env st hlhs ⟨d, hd⟩
    simp [chkIdent, hd, hlhs]

theorem C10_witness :
    (chk 5 (.assign (.intLit 1) (.intLit 2)) 0
      { stC9 with lhsMode := true }).2.lhsMode = false ∧
    (chkIdent 5 "x" 0 { stC9 with lhsMode := true }).2 =
      { stC9 with lhsMode := true } :=
  ⟨C10_lvalue_mode.1 0 stC9,
   C10_lvalue_mode.2.1 5 "x" 0 { stC9 with lhsMode := true } rfl ⟨_, rfl⟩⟩

theorem InvL_nil : InvL [] 0 := by
  constructor
  · intro r hr
    simp [defsOf] at hr
  · simp [defsOf]

theorem InvL.mono {L : List String} {c c' : Nat} (h : InvL L c) (hc : c ≤ c') :
    InvL L c' := by
  obtain ⟨h1, h2⟩ := h
  refine ⟨?_, h2⟩
  intro r hr
  obtain ⟨k, hk1, hk2, hk3⟩ := h1 r hr
  exact ⟨k, hk1, le_trans hk2 hc, hk3⟩

theorem tname_injective {j k : Nat} (h : tname j = tname k) : j = k := by
  have hd := congrArg String.data h
  simp only [tname, String.data_append] at hd
  have : (decStr j).data = (decStr k).data := by
    have : ("%t" : String).data ++ (decStr j).data = ("%t" : String).data ++ (decStr k).data := hd
    exact List.append_cancel_left this
  have : decStr j = decStr k := by
    cases hj : decStr j with
    | mk dj =>
      cases hk : decStr k with
      | mk dk =>
        rw [hj, hk] at this
        simp at this
        simp [this]
  exact decStr_injective this

theorem dropSpaces_cons_space (l : List Char) : dropSpaces (' ' :: l) = dropSpaces l := by
  simp [dropSpaces, isSpaceC]

theorem dropSpaces_cons_nonspace (c : Char) (l : List Char) (hc : c ≠ ' ') :
    dropSpaces (c :: l) = c :: l := by
  simp [dropSpaces, isSpaceC, hc]

theorem takeNonSpace_all (ds tail : List Char) (h : ∀ c ∈ ds, c ≠ ' ') :
    takeNonSpace (ds ++ ' ' :: tail) = ds := by
  induction ds with
  | nil => simp [takeNonSpace, isSpaceC]
  | cons c cs ih =>
    have hc : c ≠ ' ' := h c (by simp)
    simp only [List.cons_append, takeNonSpace, isSpaceC]
    simp [hc]
    exact ih (fun x hx => h x (by simp [hx]))

theorem tname_data (k : Nat) : (tname k).data = '%' :: 't' :: (decStr k).data := by
  have : (tname k).data = ("%t" : String).data ++ (decStr k).data := by
    simp [tname, String.data_append]
  simpa using this

theorem mk_data_eq (s : String) : String.mk s.data = s := by
  cases s
  rfl

theorem tname_no_space (k : Nat) : ∀ c ∈ (tname k).data, c ≠ ' ' := by
  intro c hc
  rw [tname_data] at hc
  simp only [List.mem_cons] at hc
  rcases hc with rfl | rfl | hc
  · decide
  · decide
  · exact decStr_no_space k c hc

/-- The register defined by a `freshDef`-shaped line. -/
theorem definedReg_defLine (k : Nat) (rhs : String) :
    definedReg ("  " ++ tname k ++ " = " ++ rhs) = some (tname k) := by
  have hd : ("  " ++ tname k ++ " = " ++ rhs).data =
      ' ' :: ' ' :: '%' :: 't' :: ((decStr k).data ++ (' ' :: '=' :: ' ' :: rhs.data)) := by
    simp [String.data_append, tname_data]
  unfold definedReg
  rw [hd, dropSpaces_cons_space, dropSpaces_cons_space,
    dropSpaces_cons_nonspace _ _ (by decide)]
  have hts : takeNonSpace ('%' :: 't' :: ((decStr k).data ++ (' ' :: '=' :: ' ' :: rhs.data)))
      = '%' :: 't' :: (decStr k).data := by
    have h2 : ∀ c ∈ '%' :: 't' :: (decStr k).data, c ≠ ' ' := by
      intro c hc
      rw [← tname_data] at hc
      exact tname_no_space k c hc
    have := takeNonSpace_all ('%' :: 't' :: (decStr k).data) ('=' :: ' ' :: rhs.data) h2
    simpa using this
  simp only [hts]
  rw [← mk_data_eq (tname k), tname_data]

theorem strAppend_assoc (a b c : String) : (a ++ b) ++ c = a ++ (b ++ c) := by
  cases a with
  | mk da =>
    cases b with
    | mk db =>
      cases c with
      | mk dc =>
        show String.mk ((da ++ db) ++ dc) = String.mk (da ++ (db ++ dc))
        rw [List.append_assoc]

theorem dropSpaces_append (l1 l2 : List Char) (c : Char) (cs : List Char)
    (h : dropSpaces l1 = c :: cs) : dropSpaces (l1 ++ l2) = c :: (cs ++ l2) := by
  induction l1 with
  | nil => simp [dropSpaces] at h
  | cons a l ih =>
    by_cases ha : isSpaceC a
    · simp only [dropSpaces, ha, if_true] at h
      simp only [List.cons_append, dropSpaces, ha, if_true]
      exact ih h
    · simp only [dropSpaces, ha, if_false] at h
      cases h
      simp [dropSpaces, ha]

theorem definedReg_none_of_data (ln : String) (c : Char) (cs : List Char)
    (h : dropSpaces ln.data = c :: cs) (hc : c ≠ '%') : definedReg ln = none := by
  unfold definedReg
  rw [h]
  cases c with
  | mk v hv =>
    split
    · rename_i heq
      rw [List.cons.injEq] at heq
      exact absurd heq.1 hc
    · rfl

/-- A line that begins with a literal prefix whose first non-space character
is not `%` defines no register, whatever follows. -/
theorem definedReg_prefix_none (pre x : String) (h : goodPrefix pre = true) :
    definedReg (pre ++ x) = none := by
  unfold goodPrefix at h
  cases hdp : dropSpaces pre.data with
  | nil => rw [hdp] at h; simp at h
  | cons c cs =>
    rw [hdp] at h
    simp only [ne_eq, bne_iff_ne] at h
    refine definedReg_none_of_data _ c (cs ++ x.data) ?_ h
    rw [String.data_append]
    exact dropSpaces_append _ _ _ _ hdp

theorem defsOf_append (l1 l2 : List String) :
    defsOf (l1 ++ l2) = defsOf l1 ++ defsOf l2 := by
  simp [defsOf, List.filterMap_append]

theorem defsOf_singleton_none {ln : String} (h : definedReg ln = none) :
    defsOf [ln] = [] := by
  simp [defsOf, List.filterMap, h]

/-- Appending a non-defining line preserves the register invariant. -/
theorem invl_step_nondef {L : List String} {c : Nat} {ln : String}
    (hln : definedReg ln = none) (h : InvL L c) : InvL (L ++ [ln]) c := by
  obtain ⟨h1, h2⟩ := h
  constructor
  · intro r hr
    rw [defsOf_append, defsOf_singleton_none hln] at hr
    simp at hr
    exact h1 r hr
  · rw [defsOf_append, defsOf_singleton_none hln]
    simpa using h2

/-- Appending an instruction that defines the next allocator register
preserves the invariant with the bumped counter. -/
theorem invl_step_def {L : List String} {c : Nat} (rhs : String) (h : InvL L c) :
    InvL (L ++ ["  " ++ tname (c + 1) ++ " = " ++ rhs]) (c + 1) := by
  obtain ⟨h1, h2⟩ := h
  have hdl : defsOf ["  " ++ tname (c + 1) ++ " = " ++ rhs] = [tname (c + 1)] := by
    simp [defsOf, List.filterMap, definedReg_defLine]
  constructor
  · intro r hr
    rw [defsOf_append, hdl] at hr
    simp only [List.mem_append, List.mem_singleton] at hr
    rcases hr with hr | hr
    · obtain ⟨k, hk1, hk2, hk3⟩ := h1 r hr
      exact ⟨k, hk1, Nat.le_succ_of_le hk2, hk3⟩
    · exact ⟨c + 1, by omega, le_rfl, hr⟩
  · rw [defsOf_append, hdl]
    rw [List.nodup_append]
    refine ⟨h2, List.nodup_singleton _, ?_⟩
    intro r hr hmem
    simp only [List.mem_singleton] at hmem
    subst hmem
    obtain ⟨k, hk1, hk2, hk3⟩ := h1 _ hr
    have := tname_injective hk3.symm
    omega

theorem defsOf_insertPy (i : Nat) (ln : String) (lines : List String)
    (h : definedReg ln = none) : defsOf (insertPy i ln lines) = defsOf lines := by
  unfold insertPy
  rw [defsOf_append, defsOf_append, defsOf_singleton_none h]
  simp only [List.append_nil]
  rw [← defsOf_append, List.take_append_drop]

theorem invl_insert_nondef {L : List String} {c : Nat} {ln : String} (i : Nat)
    (hln : definedReg ln = none) (h : InvL L c) : InvL (insertPy i ln L) c := by
  obtain ⟨h1, h2⟩ := h
  exact ⟨fun r hr => h1 r (by rwa [defsOf_insertPy i ln L hln] at hr),
    by rwa [defsOf_insertPy i ln L hln]⟩

theorem definedReg_some_of_data (ln : String) (k : Nat) (tail : List Char)
    (hd : ln.data = (tname k).data ++ (' ' :: tail)) : definedReg ln = some (tname k) := by
  unfold definedReg
  rw [hd, tname_data]
  simp only [List.cons_append]
  rw [dropSpaces_cons_nonspace _ _ (by decide)]
  have h2 : ∀ c ∈ '%' :: 't' :: (decStr k).data, c ≠ ' ' := by
    intro c hc
    rw [← tname_data] at hc
    exact tname_no_space k c hc
  have hts := takeNonSpace_all ('%' :: 't' :: (decStr k).data) tail h2
  simp only [List.cons_append] at hts
  simp only [hts]
  rw [← mk_data_eq (tname k), tname_data]

theorem definedReg_gepLine (k : Nat) (g : String) :
    definedReg (tname k ++ " = getelementptr inbounds ([4 x i8], [4 x i8]* " ++ g ++
      ", i32 0, i32 0)") = some (tname k) := by
  apply definedReg_some_of_data _ k
    (("= getelementptr inbounds ([4 x i8], [4 x i8]* ").data ++
      (g.data ++ (", i32 0, i32 0)").data))
  simp [String.data_append]

/-- Appending any instruction line that defines the next allocator register. -/
theorem invl_step_def_line {L : List String} {c : Nat} {ln : String}
    (hln : definedReg ln = some (tname (c + 1))) (h : InvL L c) :
    InvL (L ++ [ln]) (c + 1) := by
  obtain ⟨h1, h2⟩ := h
  have hdl : defsOf [ln] = [tname (c + 1)] := by
    simp [defsOf, List.filterMap, hln]
  constructor
  · intro r hr
    rw [defsOf_append, hdl] at hr
    simp only [List.mem_append, List.mem_singleton] at hr
    rcases hr with hr | hr
    · obtain ⟨k, hk1, hk2, hk3⟩ := h1 r hr
      exact ⟨k, hk1, Nat.le_succ_of_le hk2, hk3⟩
    · exact ⟨c + 1, by omega, le_rfl, hr⟩
  · rw [defsOf_append, hdl]
    rw [List.nodup_append]
    refine ⟨h2, List.nodup_singleton _, ?_⟩
    intro r hr hmem
    simp only [List.mem_singleton] at hmem
    subst hmem
    obtain ⟨k, hk1, hk2, hk3⟩ := h1 _ hr
    have := tname_injective hk3.symm
    omega

theorem GInv_freshDef (rhs : String) (st : GenSt) (h : GInv st) :
    GInv (freshDef rhs st).2 := by
  simp only [freshDef, tmpReg, emitLn, GInv]
  exact invl_step_def rhs h

theorem GInv_gepCstr (g : String) (st : GenSt) (h : GInv st) :
    GInv (gepCstr g st).2 := by
  simp only [gepCstr, tmpReg, emitLn, GInv]
  exact invl_step_def_line (definedReg_gepLine _ _) h

theorem GInv_emitLn {ln : String} (st : GenSt) (hln : definedReg ln = none)
    (h : GInv st) : GInv (emitLn ln st) := by
  simp only [emitLn, GInv]
  exact invl_step_nondef hln h

theorem GInv_asI1 (v : ValueRef) (st : GenSt) (h : GInv st) : GInv (asI1 v st).2 := by
  unfold asI1
  split_ifs with h1 h2 h3
  · exact h
  · exact GInv_freshDef _ _ h
  · exact GInv_freshDef _ _ h
  · exact h

theorem GInv_genPrint (v : ValueRef) (st : GenSt) (h : GInv st) : GInv (genPrint v st) := by
  unfold genPrint
  split_ifs with h1 h2 h3 h4 <;>
    (refine GInv_emitLn _ ?_ (GInv_gepCstr _ _ h)
     simp only [strAppend_assoc]
     exact definedReg_prefix_none _ _ (by decide))

theorem GInv_genArrayPtrFallback (st : GenSt) (h : GInv st) :
    GInv (genArrayPtrFallback st).2.2 := by
  unfold genArrayPtrFallback
  exact GInv_freshDef _ _ h

theorem GInv_genArrayPtrGlobal (nm : String) (st : GenSt) (h : GInv st) :
    GInv (genArrayPtrGlobal nm st).2.2 := by
  unfold genArrayPtrGlobal
  split
  · split_ifs
    · exact GInv_freshDef _ _ h
    · exact GInv_genArrayPtrFallback _ h
  · exact GInv_genArrayPtrFallback _ h

theorem GInv_genArrayPtr (arrNode : PNode) (sc : GScope) (st : GenSt) (h : GInv st) :
    GInv (genArrayPtr arrNode sc st).2.2 := by
  unfold genArrayPtr
  split
  · split
    · split_ifs
      · exact GInv_freshDef _ _ h
      · exact GInv_freshDef _ _ h
      · exact GInv_genArrayPtrGlobal _ _ h
    · exact GInv_genArrayPtrGlobal _ _ h
  · exact GInv_genArrayPtrFallback _ h

theorem GInv_tryArgLength (argNode : PNode) (st : GenSt) (h : GInv st) :
    GInv (tryArgLength argNode st).2 := by
  unfold tryArgLength
  split
  · split
    · split_ifs
      · exact GInv_freshDef _ _ h
      · exact h
    · split
      · split_ifs
        · exact h
        · exact h
      · exact h
  · split
    · split_ifs
      · exact GInv_freshDef _ _ h
      · exact h
    · exact h
  · exact h

theorem GInv_declareLenGlobal (gname : String) (st : GenSt)
    (hg : definedReg (gname ++ " = global i32 0") = none) (h : GInv st) :
    GInv (declareLenGlobal gname st) := by
  unfold declareLenGlobal
  split_ifs
  · exact h
  · exact invl_insert_nondef _ hg h

theorem GInv_genIdentExpr (nm : String) (sc : GScope) (st : GenSt) (h : GInv st) :
    GInv (genIdentExpr nm sc st).2 := by
  unfold genIdentExpr
  split
  · exact GInv_freshDef _ _ h
  · split
    · exact GInv_freshDef _ _ h
    · exact h

theorem GInv_ite_pair {α : Type} {c : Prop} [Decidable c] {e1 e2 : α × GenSt}
    (h1 : GInv e1.2) (h2 : GInv e2.2) : GInv (if c then e1 else e2).2 := by
  split_ifs <;> assumption

/-- Sequencing: destructure an intermediate `(value, state)` pair and
continue. -/
theorem GInv_bind_pair {α β : Type} (proj : β → GenSt) (e : α × GenSt)
    (f : α → GenSt → β) (he : GInv e.2) (hf : ∀ v s, GInv s → GInv (proj (f v s))) :
    GInv (proj (match e with | (v, s) => f v s)) := by
  rcases e with ⟨v, s⟩
  exact hf v s he

set_option maxHeartbeats 1600000 in
theorem GInv_genBinOper (op : String) (a b : ValueRef) (st : GenSt) (h : GInv st) :
    GInv (genBinOper op a b st).2 := by
  by_cases hf : a.ty = LLVM_FLOAT ∨ b.ty = LLVM_FLOAT
  · simp only [genBinOper, if_pos hf]
    split
    · exact GInv_freshDef _ _ (GInv_ite_pair
        (GInv_freshDef _ _ (GInv_ite_pair (GInv_freshDef _ _ h) h))
        (GInv_ite_pair (GInv_freshDef _ _ h) h))
    · split
      · exact GInv_freshDef _ _ (GInv_ite_pair
          (GInv_freshDef _ _ (GInv_ite_pair (GInv_freshDef _ _ h) h))
          (GInv_ite_pair (GInv_freshDef _ _ h) h))
      · exact GInv_ite_pair
          (GInv_freshDef _ _ (GInv_ite_pair (GInv_freshDef _ _ h) h))
          (GInv_ite_pair (GInv_freshDef _ _ h) h)
  · simp only [genBinOper, if_neg hf]
    split_ifs
    case _ => exact GInv_freshDef _ _ h
    case _ => exact GInv_freshDef _ _ h
    case _ => exact GInv_freshDef _ _ h
    case _ => exact GInv_freshDef _ _ h
    case _ => exact GInv_freshDef _ _ h
    all_goals first
      | exact GInv_freshDef _ _ h
      | exact GInv_freshDef _ _ (GInv_asI1 _ _ (GInv_asI1 _ _ h))
      | exact h

theorem GInv_genLabel (base : String) (st : GenSt) (h : GInv st) :
    GInv (genLabel base st).2 := h

theorem genLabel_fst (base : String) (st : GenSt) :
    (genLabel base st).1 = base ++ decStr (st.blkCounter + 1) := rfl

theorem GInv_irHeader (st : GenSt) (h : GInv st) : GInv (irHeader st) := by
  unfold irHeader
  refine GInv_emitLn _ (by decide) ?_
  refine GInv_emitLn _ (by decide) ?_
  refine GInv_emitLn _ (by decide) ?_
  refine GInv_emitLn _ (by decide) ?_
  refine GInv_emitLn _ (by decide) ?_
  refine GInv_emitLn _ (by decide) ?_
  refine GInv_emitLn _ (by decide) ?_
  exact GInv_emitLn _ (by decide) h

theorem GInv_stringGlobal (s : String) (st : GenSt) (h : GInv st) :
    GInv (stringGlobal s st).2 := by
  unfold stringGlobal
  dsimp only
  split_ifs
  · exact h
  · refine invl_insert_nondef _ ?_ h
    simp only [strAppend_assoc]
    exact definedReg_prefix_none "@.str." _ (by decide)

theorem GInv_genLenStores (args : List PNode) :
    ∀ (callee : String) (i : Nat) (st : GenSt), GInv st →
      GInv (genLenStores args callee i st) := by
  induction args with
  | nil => intro callee i st h; exact h
  | cons a rest ih =>
    intro callee i st h
    have key : ∀ (q : Option ValueRef × GenSt), GInv q.2 →
        GInv (match q.1 with
          | some lv =>
            emitLn ("  store i32 " ++ lv.name ++ ", i32* " ++
                ("@.len." ++ callee ++ ".p" ++ decStr i))
              (declareLenGlobal ("@.len." ++ callee ++ ".p" ++ decStr i) q.2)
          | none => q.2) := by
      rintro ⟨len?, st1⟩ h1
      cases len? with
      | none => exact h1
      | some lv =>
        refine GInv_emitLn _ ?_ (GInv_declareLenGlobal _ _ ?_ h1)
        · simp only [strAppend_assoc]
          exact definedReg_prefix_none "  store i32 " _ (by decide)
        · simp only [strAppend_assoc]
          exact definedReg_prefix_none "@.len." _ (by decide)
    exact ih _ _ _ (key (tryArgLength a st) (GInv_tryArgLength a st h))

theorem GInv_getArrayLength (arrNode : Option PNode) (st : GenSt) (h : GInv st) :
    GInv (getArrayLength arrNode st).2 := by
  unfold getArrayLength
  split <;> dsimp only
  all_goals try exact h
  all_goals split
  all_goals try (split_ifs
                 · exact GInv_freshDef _ _ h
                 · exact h)
  all_goals split
  all_goals try exact h
  all_goals split
  all_goals try exact h
  all_goals split_ifs
  all_goals try exact h
  all_goals
    refine GInv_freshDef _ _ (GInv_declareLenGlobal _ _ ?_ h)
  all_goals simp only [strAppend_assoc]
  all_goals exact definedReg_prefix_none "@.len." _ (by decide)

theorem GInv_genParamAllocas (ps : List PNode) :
    ∀ (sc : GScope) (st : GenSt), GInv st → GInv (genParamAllocas ps sc st).2 := by
  induction ps with
  | nil => intro sc st h; exact h
  | cons p rest ih =>
    intro sc st h
    unfold genParamAllocas
    split
    · refine ih _ _ ?_
      refine GInv_emitLn _ ?_ (GInv_freshDef _ _ h)
      simp only [strAppend_assoc]
      exact definedReg_prefix_none "  store " _ (by decide)
    · exact ih _ _ h

theorem GInv_genGlobalDecl (name : String) (ty init : Option PNode) (st : GenSt)
    (h : GInv st) : GInv (genGlobalDecl name ty init st) := by
  unfold genGlobalDecl
  split
  · split
    · refine GInv_emitLn _ ?_ h
      simp only [strAppend_assoc]
      exact definedReg_prefix_none "@" _ (by decide)
    · refine GInv_emitLn _ ?_ h
      simp only [strAppend_assoc]
      exact definedReg_prefix_none "@" _ (by decide)
  · refine GInv_emitLn _ ?_ h
    simp only [strAppend_assoc]
    exact definedReg_prefix_none "@" _ (by decide)

theorem GInv_ite {c : Prop} [Decidable c] {e1 e2 : GenSt}
    (h1 : GInv e1) (h2 : GInv e2) : GInv (if c then e1 else e2) := by
  split_ifs <;> assumption

set_option maxHeartbeats 12800000 in
/-- The register invariant is preserved by every member of the recursive
generator group, at every fuel. -/
theorem GInv_gen_all (fuel : Nat) :
    (∀ e sc st, GInv st → GInv (genExpr fuel e sc st).2) ∧
    (∀ e sc st, GInv st → GInv (genExprOpt fuel e sc st).2) ∧
    (∀ args sc st, GInv st → GInv (genExprList fuel args sc st).2) ∧
    (∀ args sc st, GInv st → GInv (genPrintArgs fuel args sc st)) ∧
    (∀ ss sc st, GInv st → GInv (genStmts fuel ss sc st).2) ∧
    (∀ d sc st, GInv st → GInv (genLocalVardecl fuel d sc st).2) ∧
    (∀ n sc st, GInv st → GInv (genIf fuel n sc st)) ∧
    (∀ n sc st, GInv st → GInv (genWhile fuel n sc st)) ∧
    (∀ n sc st, GInv st → GInv (genDoWhile fuel n sc st)) ∧
    (∀ n sc st, GInv st → GInv (genFor fuel n sc st)) ∧
    (∀ f st, GInv st → GInv (genFunction fuel f st)) := by
  induction fuel with
  | zero =>
    exact ⟨fun _ _ _ h => h, fun _ _ _ h => h, fun _ _ _ h => h, fun _ _ _ h => h,
      fun _ _ _ h => h, fun _ _ _ h => h, fun _ _ _ h => h, fun _ _ _ h => h,
      fun _ _ _ h => h, fun _ _ _ h => h, fun _ _ h => h⟩
  | succ fuel ih =>
    obtain ⟨ihE, ihEO, ihEL, ihPA, ihS, ihLV, ihIf, ihW, ihDW, ihFor, ihFn⟩ := ih
    refine ⟨?_, ?_, ?_, ?_, ?_, ?_, ?_, ?_, ?_, ?_, ?_⟩
    · -- genExpr
      intro e sc st h
      unfold genExpr
      split
      all_goals repeat' first
        | exact h
        | refine ihE _ _ _ ?_
        | refine ihEO _ _ _ ?_
        | refine ihEL _ _ _ ?_
        | refine ihPA _ _ _ ?_
        | refine ihS _ _ _ ?_
        | refine ihLV _ _ _ ?_
        | refine ihIf _ _ _ ?_
        | refine ihW _ _ _ ?_
        | refine ihDW _ _ _ ?_
        | refine ihFor _ _ _ ?_
        | refine ihFn _ _ ?_
        | refine GInv_freshDef _ _ ?_
        | refine GInv_asI1 _ _ ?_
        | refine GInv_genPrint _ _ ?_
        | refine GInv_stringGlobal _ _ ?_
        | refine GInv_genIdentExpr _ _ _ ?_
        | refine GInv_genArrayPtr _ _ _ ?_
        | refine GInv_getArrayLength _ _ ?_
        | refine GInv_genLenStores _ _ _ _ ?_
        | refine GInv_genParamAllocas _ _ _ ?_
        | refine GInv_genBinOper _ _ _ _ ?_
        | refine GInv_gepCstr _ _ ?_
        | refine GInv_ite_pair ?_ ?_
        | refine GInv_ite ?_ ?_
        | refine GInv_emitLn _ ?_ ?_
        | ((try simp only [genLabel_fst, strAppend_assoc])
           exact definedReg_prefix_none _ _ (by decide))
        | exact (by decide)
        | split
    · -- genExprOpt
      intro e sc st h
      cases e with
      | none => exact h
      | some e0 => exact ihE e0 sc st h
    · -- genExprList
      intro args sc st h
      unfold genExprList
      split
      · exact h
      · exact ihEL _ _ _ (ihE _ _ _ h)
    · -- genPrintArgs
      intro args sc st h
      unfold genPrintArgs
      split
      · exact h
      · exact ihPA _ _ _ (GInv_genPrint _ _ (ihE _ _ _ h))
    · -- genStmts
      intro ss sc st h
      unfold genStmts
      split
      all_goals repeat' first
        | exact h
        | refine ihE _ _ _ ?_
        | refine ihEO _ _ _ ?_
        | refine ihEL _ _ _ ?_
        | refine ihPA _ _ _ ?_
        | refine ihS _ _ _ ?_
        | refine ihLV _ _ _ ?_
        | refine ihIf _ _ _ ?_
        | refine ihW _ _ _ ?_
        | refine ihDW _ _ _ ?_
        | refine ihFor _ _ _ ?_
        | refine ihFn _ _ ?_
        | refine GInv_freshDef _ _ ?_
        | refine GInv_asI1 _ _ ?_
        | refine GInv_genPrint _ _ ?_
        | refine GInv_ite_pair ?_ ?_
        | refine GInv_ite ?_ ?_
        | refine GInv_emitLn _ ?_ ?_
        | ((try simp only [genLabel_fst, strAppend_assoc])
           exact definedReg_prefix_none _ _ (by decide))
        | exact (by decide)
        | split
    · -- genLocalVardecl
      intro d sc st h
      unfold genLocalVardecl
      split
      all_goals try (injections; subst_vars)
      all_goals repeat' first
        | exact h
        | refine ihE _ _ _ ?_
        | refine GInv_freshDef _ _ ?_
        | refine GInv_ite_pair ?_ ?_
        | refine GInv_ite ?_ ?_
        | refine GInv_emitLn _ ?_ ?_
        | ((try simp only [genLabel_fst, strAppend_assoc])
           exact definedReg_prefix_none _ _ (by decide))
        | exact (by decide)
        | split
    · -- genIf
      intro n sc st h
      unfold genIf
      split
      all_goals repeat' first
        | exact h
        | refine ihEO _ _ _ ?_
        | refine ihS _ _ _ ?_
        | refine GInv_asI1 _ _ ?_
        | refine GInv_emitLn _ ?_ ?_
        | ((try simp only [genLabel_fst, strAppend_assoc])
           exact definedReg_prefix_none _ _ (by decide))
        | exact (by decide)
        | split
    · -- genWhile
      intro n sc st h
      unfold genWhile
      split
      all_goals repeat' first
        | exact h
        | refine ihEO _ _ _ ?_
        | refine ihS _ _ _ ?_
        | refine GInv_asI1 _ _ ?_
        | refine GInv_emitLn _ ?_ ?_
        | ((try simp only [genLabel_fst, strAppend_assoc])
           exact definedReg_prefix_none _ _ (by decide))
        | exact (by decide)
        | split
    · -- genDoWhile
      intro n sc st h
      unfold genDoWhile
      split
      all_goals repeat' first
        | exact h
        | refine ihEO _ _ _ ?_
        | refine ihS _ _ _ ?_
        | refine GInv_asI1 _ _ ?_
        | refine GInv_emitLn _ ?_ ?_
        | ((try simp only [genLabel_fst, strAppend_assoc])
           exact definedReg_prefix_none _ _ (by decide))
        | exact (by decide)
        | split
    · -- genFor
      intro n sc st h
      unfold genFor
      split
      all_goals repeat' first
        | exact h
        | refine ihE _ _ _ ?_
        | refine ihS _ _ _ ?_
        | refine GInv_asI1 _ _ ?_
        | refine GInv_emitLn _ ?_ ?_
        | ((try simp only [genLabel_fst, strAppend_assoc])
           exact definedReg_prefix_none _ _ (by decide))
        | exact (by decide)
        | split
    · -- genFunction
      intro f st h
      unfold genFunction
      split
      all_goals try (injections; subst_vars)
      all_goals repeat' first
        | exact h
        | refine ihS _ _ _ ?_
        | refine GInv_genParamAllocas _ _ _ ?_
        | refine GInv_ite ?_ ?_
        | refine GInv_emitLn _ ?_ ?_
        | ((try simp only [genLabel_fst, strAppend_assoc])
           exact definedReg_prefix_none _ _ (by decide))
        | exact (by decide)
        | split

theorem GInv_foldl (f : GenSt → PNode → GenSt)
    (hf : ∀ st s, GInv st → GInv (f st s)) :
    ∀ (l : List PNode) (st : GenSt), GInv st → GInv (l.foldl f st) := by
  intro l
  induction l with
  | nil => intro st h; simpa using h
  | cons a rest ih => intro st h; rw [List.foldl_cons]; exact ih _ (hf _ _ h)

/-- The whole-module generator establishes the register invariant from the
empty initial state. -/
theorem GInv_genProgram (fuel : Nat) (prog : PNode) : GInv (genProgram fuel prog) := by
  have h0 : GInv (irHeader genSt0) := GInv_irHeader _ InvL_nil
  have hFn := (GInv_gen_all fuel).2.2.2.2.2.2.2.2.2.2
  unfold genProgram
  split
  · refine GInv_foldl _ ?_ _ _ (GInv_foldl _ ?_ _ _ (GInv_foldl _ ?_ _ _ h0))
    · intro st s hg
      split
      · exact hFn _ _ hg
      · exact hg
    · intro st s hg
      split
      · exact hg
      · exact GInv_genGlobalDecl _ _ _ _ hg
      · exact hg
    · intro st s hg
      split
      · exact hg
      · exact hg
  · exact h0

/-- C7: the virtual-register allocator of `IREmitter.tmp` is strictly
monotonic and injective (`%t<k>` for the `k`-th call), and in the module text
produced by `Codegen.gen_program` no instruction line defines a register name
that any other instruction line of the module (in any function) also defines:
the list of defined register names is duplicate-free, module-wide. -/
theorem C7_register_uniqueness :
    (∀ st : GenSt, (tmpReg st).2.tmpCounter = st.tmpCounter + 1 ∧
      (tmpReg st).1 = tname (st.tmpCounter + 1)) ∧
    (∀ j k : Nat, j ≠ k → tname j ≠ tname k) ∧
    (∀ (fuel : Nat) (prog : PNode), (defsOf (genProgram fuel prog).lines).Nodup) := by
  refine ⟨fun st => ⟨rfl, rfl⟩, ?_, ?_⟩
  · intro j k hjk heq
    exact hjk (tname_injective heq)
  · intro fuel prog
    exact (GInv_genProgram fuel prog).2

/-- Witness: the hypotheses of `C7_register_uniqueness` discharged at a
concrete instance (distinct indices 3 and 7; Scenario D's program). -/
theorem C7_witness :
    tname 3 ≠ tname 7 ∧ (defsOf (genProgram 32 progD).lines).Nodup :=
  ⟨C7_register_uniqueness.2.1 3 7 (by decide), C7_register_uniqueness.2.2 32 progD⟩
